import Mathlib

/-!
# Verification of the day 16 valve-network search (`src/day16/src/main.rs`)

This file gives a shallow embedding of the branch-and-bound pressure search:
the `State` / `Network` data model, the `branch` and `bound` functions, the
fueled `branch_and_bound` driver, the two entry points (`part1` / `part2`,
generalized over the time budget as `maxPressure` / `maxPressureWithHelper`),
the Floyd-Warshall distance precompute, and the `Task` construction.

Machine integers of the source (`u8` distances/flows/minutes, `u16` bitmasks
and pressures) are modelled as `Nat`; wraparound of the `u16` pressure and
bound arithmetic, where it matters, is modelled separately by `branch16` and
`bound16` with explicit `% 65536`.  Panics (`assert!`, `.expect`) are
modelled as `Except.error`.
-/

set_option maxRecDepth 2000000
set_option maxHeartbeats 4000000

namespace Day16

/-- Source alias `type Flows = Vec<u8>;`. -/
abbrev Flows := List Nat

/-- Source alias `type Distances = Vec<Vec<u8>>;`. -/
abbrev Distances := List (List Nat)

/-- The search state, from `struct State` in `main.rs`:
`visited`/`avoid` are `u16` bitmasks, `pressure_released : u16`,
`minutes_remaining : u8`, `pos : usize`. -/
structure State where
  visited : Nat
  avoid : Nat
  pressure_released : Nat
  minutes_remaining : Nat
  pos : Nat
deriving DecidableEq, Repr

/-- The reduced network, from `struct Network` in `main.rs`. -/
structure Network where
  flows : Flows
  sorted_indexes : List Nat
  dists : Distances
deriving DecidableEq, Repr

/-- Constructor `State::new(pos, minutes_remaining)`. -/
def State.new (pos minutes_remaining : Nat) : State :=
  { visited := 0
    avoid := 1 <<< pos
    pressure_released := 0
    minutes_remaining
    pos }

/-- Predicate `State::can_visit`: `(self.visited | self.avoid) & (1 << i) == 0`. -/
def State.can_visit (s : State) (i : Nat) : Bool :=
  (s.visited ||| s.avoid) &&& (1 <<< i) == 0

/-- Successor generation `State::branch`: iterate over `net.dists[self.pos]` with indices, keep the
destinations that `can_visit` holds for, and for each compute
`minutes_remaining.checked_sub(d + 1)` (which succeeds exactly when
`d + 1 ≤ minutes_remaining`), the released pressure, the new bitmask and the
new position. -/
def State.branch (s : State) (net : Network) : List State :=
  ((net.dists.getD s.pos []).enum.filter (fun p => s.can_visit p.1)).filterMap
    (fun p =>
      if p.2 + 1 ≤ s.minutes_remaining then
        some { visited := s.visited ||| (1 <<< p.1)
               avoid := s.avoid
               pressure_released :=
                 s.pressure_released + (s.minutes_remaining - (p.2 + 1)) * net.flows.getD p.1 0
               minutes_remaining := s.minutes_remaining - (p.2 + 1)
               pos := p.1 }
      else none)

/-- The minute sequence `(0..=m).rev().step_by(2).skip(1)` used by
`State::bound`: the list `[m-2, m-4, ...]` with `⌊m/2⌋` entries. -/
def slots : Nat → List Nat
  | 0 => []
  | 1 => []
  | m + 2 => m :: slots m

/-- The descending list of flows of the still-visitable valves, the
`sorted_flows` iterator of `State::bound`. -/
def Network.availFlows (net : Network) (s : State) : List Nat :=
  (net.sorted_indexes.filter (fun i => s.can_visit i)).map (fun i => net.flows.getD i 0)

/-- Sum `Σ minutes·flow` over the zip of the minute slots with a flow list: the
sum inside `State::bound`. -/
def sumSlots (m : Nat) (l : List Nat) : Nat :=
  (((slots m).zip l).map (fun p => p.1 * p.2)).sum

/-- Estimator `State::bound`: zip the optimistic minute slots with the descending
still-available flows, sum the products and add the pressure released so
far. -/
def State.bound (s : State) (net : Network) : Nat :=
  sumSlots s.minutes_remaining (net.availFlows s) + s.pressure_released

/-- Insertion step of the stable descending-by-key sort used to model
the itertools `sorted_unstable_by_key(Reverse(key))` sort: `a` goes after every
element with a strictly larger key and before the rest. -/
def insertDesc (key : α → Nat) (a : α) : List α → List α
  | [] => [a]
  | b :: l => if key a < key b then b :: insertDesc key a l else a :: b :: l

/-- Stable sort by descending key, modelling
`sorted_unstable_by_key(Reverse(key))` (the source's sort is unstable, i.e.
free to order key-equal elements arbitrarily; this model fixes the stable
order).  Structural recursion keeps it kernel-computable. -/
def sortByKeyDesc (key : α → Nat) (l : List α) : List α :=
  l.foldr (insertDesc key) []

/-- The table update at the head of `Network::branch_and_bound`:
`if let Some(curr_max) = max_for_visited.get_mut(state.visited as usize)
{ *curr_max = state.pressure_released.max(*curr_max) }`.
`List.set` out of range is a no-op, matching `get_mut` returning `None`. -/
def tableUpdate (tbl : List Nat) (visited pressure : Nat) : List Nat :=
  tbl.set visited (max pressure (tbl.getD visited 0))

/-- Driver `Network::branch_and_bound`, with explicit fuel standing for the call
stack (the source recurses directly; `minutes_remaining` strictly decreases,
so any fuel exceeding the initial minutes gives the same result, see the C7
theorem).  The driver records the state's pressure in the per-mask table and
in `ans`, generates the children with their bounds, filters them by
`filter_bound` against the updated `ans`, sorts them by descending bound
(`sorted_unstable_by_key(Reverse(bound))`, modelled by the stable
`mergeSort`), and recurses, re-checking `filter_bound` against the running
`ans`. -/
def Network.branch_and_bound (net : Network) (filter_bound : Nat → Nat → Bool) :
    Nat → State → List Nat → Nat → List Nat × Nat
  | 0, _, tbl, ans => (tbl, ans)
  | fuel + 1, state, tbl, ans =>
    let tbl1 := tableUpdate tbl state.visited state.pressure_released
    let ans1 := max state.pressure_released ans
    let pairs := sortByKeyDesc (fun p => p.1)
      (((state.branch net).map (fun st => (st.bound net, st))).filter
        (fun p => filter_bound p.1 ans1))
    pairs.foldl
      (fun acc p =>
        if filter_bound p.1 acc.2 then
          net.branch_and_bound filter_bound fuel p.2 acc.1 acc.2
        else acc)
      (tbl1, ans1)

/-- The body of `Task::part1` generalized over the time budget (the source
hard-codes 30 minutes): run the strictly-pruned search
(`|bound, best| bound > best`) with an empty table and return `ans`. -/
def maxPressure (net : Network) (start budget : Nat) : Nat :=
  (net.branch_and_bound (fun bound best => decide (best < bound)) (budget + 1)
    (State.new start budget) [] 0).2

/-- The inner loop of the combiner in `Task::part2`: walk the remaining
`(mask, value)` pairs; `break` (returning the running `ans`) once
`score <= ans`, and take `score` at the first disjoint mask. -/
def innerScan (elf : Nat × Nat) : List (Nat × Nat) → Nat → Nat
  | [], ans => ans
  | q :: rest, ans =>
    let score := elf.2 + q.2
    if score ≤ ans then ans
    else if elf.1 &&& q.1 == 0 then score
    else innerScan elf rest ans

/-- The outer loop of the combiner in `Task::part2` over
`sorted_max.iter().enumerate()`, the inner loop running over
`&sorted_max[i + 1..]`. -/
def pairScan : List (Nat × Nat) → Nat → Nat
  | [], ans => ans
  | p :: rest, ans => pairScan rest (innerScan p rest ans)

/-- The body of `Task::part2` generalized over the time budget (the source
hard-codes 26 minutes): run the loosely-pruned search
(`|bound, best| bound > (best * 3 / 4)`) filling a table of `u16::MAX = 65535`
zeros, collect the `(mask, value)` entries with positive value sorted by
descending value, and scan for the best disjoint pair. -/
def maxPressureWithHelper (net : Network) (start budget : Nat) : Nat :=
  let res := net.branch_and_bound (fun bound best => decide (best * 3 / 4 < bound)) (budget + 1)
    (State.new start budget) (List.replicate 65535 0) 0
  let sorted_max :=
    sortByKeyDesc (fun p => p.2) (res.1.enum.filter (fun p => decide (0 < p.2)))
  pairScan sorted_max 0

/-- One iteration of the `for (bound, branch) in pairs` loop of
`Network::branch_and_bound`: re-check `filter_bound` against the running
`ans` and recurse when it passes. -/
def bbFold (net : Network) (filter_bound : Nat → Nat → Bool) (fuel : Nat)
    (acc : List Nat × Nat) (p : Nat × State) : List Nat × Nat :=
  if filter_bound p.1 acc.2 then net.branch_and_bound filter_bound fuel p.2 acc.1 acc.2 else acc

/-- A parsed valve record (`name, flow, links`), as consumed by
`shortest_distances` and `Task::from_str` in `main.rs`. -/
structure Valve where
  name : String
  flow : Nat
  links : List String
deriving DecidableEq, Repr, Inhabited

/-- The initial matrix of `shortest_distances`: `u8::MAX = 255` everywhere,
then `1` between linked valves, then `0` on the diagonal (the diagonal is
written last in the source, so it wins). -/
def initDists (valves : List Valve) : Distances :=
  let n := valves.length
  (List.range n).map (fun i =>
    (List.range n).map (fun j =>
      if i = j then 0
      else if (valves.getD i default).links.any
          (fun link => valves.findIdx (fun v => v.name == link) == j) then 1
      else 255))

/-- One Floyd-Warshall relaxation
`dists[i][j] = min(dists[i][j], dists[i][k].saturating_add(dists[k][j]))`,
with `u8` saturation at 255, written in place exactly as in the source. -/
def relax (dists : Distances) (k i j : Nat) : Distances :=
  let d := min ((dists.getD i []).getD k 255 + (dists.getD k []).getD j 255) 255
  if d < (dists.getD i []).getD j 255 then
    dists.set i ((dists.getD i []).set j d)
  else dists

/-- The two inner loops of the Floyd-Warshall triple loop: relax every pair
`(i, j)` through the fixed intermediate valve `k`. -/
def fwInner (n : Nat) (dists : Distances) (k : Nat) : Distances :=
  (List.range n).foldl (fun dists i =>
    (List.range n).foldl (fun dists j => relax dists k i j) dists) dists

/-- Distance precompute `shortest_distances`: Floyd-Warshall over the full valve list. -/
def shortest_distances (valves : List Valve) : Distances :=
  let n := valves.length
  (List.range n).foldl (fwInner n) (initDists valves)

/-- Container `struct Task`. -/
structure Task where
  network : Network
  start : Nat
deriving DecidableEq, Repr

deriving instance DecidableEq for Except

/-- The body of `Task::from_str` after parsing: keep the valves named `AA` or
with positive flow, check the 16-valve bitmask limit (`assert!`, modelled as
an error), gather the flows, the distance sub-matrix and the indices sorted
by descending flow, and locate the start valve (`.expect("an AA valve")`,
modelled as an error). -/
def Task.fromValves (valves : List Valve) : Except String Task :=
  let full_dists := shortest_distances valves
  let interesting_subset :=
    (valves.enum.filter (fun p => (p.2.name == "AA") || decide (0 < p.2.flow))).map (fun p => p.1)
  if interesting_subset.length ≤ 16 then
    let flows := interesting_subset.map (fun i => (valves.getD i default).flow)
    let dists := interesting_subset.map (fun i =>
      interesting_subset.map (fun j => (full_dists.getD i []).getD j 0))
    let sorted_indexes := (sortByKeyDesc (fun p => p.2) flows.enum).map (fun p => p.1)
    match interesting_subset.findIdx? (fun i => (valves.getD i default).name == "AA") with
    | some start => Except.ok { network := { flows, sorted_indexes, dists }, start }
    | none => Except.error ("an AA valve")
  else Except.error ("interesting_subset.len() <= 16")

/-- Entry point `Task::part1`: single-agent search with a 30-minute budget. -/
def Task.part1 (t : Task) : Nat := maxPressure t.network t.start 30

/-- Entry point `Task::part2`: two-agent search with a 26-minute budget. -/
def Task.part2 (t : Task) : Nat := maxPressureWithHelper t.network t.start 26

/-- Modelled from the spec: the canonical 10-valve example network
(`data/example.txt`, valves `AA..JJ`, "flows and tunnels as in the standard
test fixture"); the fixture file itself is not under `src/`, so its records
are reproduced here from the spec's description of the standard example. -/
def exampleValves : List Valve :=
  [ { name := "AA", flow := 0, links := ["DD", "II", "BB"] }
    , { name := "BB", flow := 13, links := ["CC", "AA"] }
    , { name := "CC", flow := 2, links := ["DD", "BB"] }
    , { name := "DD", flow := 20, links := ["CC", "AA", "EE"] }
    , { name := "EE", flow := 3, links := ["FF", "DD"] }
    , { name := "FF", flow := 0, links := ["EE", "GG"] }
    , { name := "GG", flow := 0, links := ["FF", "HH"] }
    , { name := "HH", flow := 22, links := ["GG"] }
    , { name := "II", flow := 0, links := ["AA", "JJ"] }
    , { name := "JJ", flow := 21, links := ["II"] } ]

/-- The `Task` built from the canonical example network. -/
def exampleTask : Task :=
  match Task.fromValves exampleValves with
  | Except.ok t => t
  | Except.error _ => { network := { flows := [], sorted_indexes := [], dists := [] }, start := 0 }

/-- The successor state that `State::branch` builds for target valve `t`. -/
def State.child (s : State) (net : Network) (t : Nat) : State :=
  { visited := s.visited ||| (1 <<< t)
    avoid := s.avoid
    pressure_released := s.pressure_released +
      (s.minutes_remaining - ((net.dists.getD s.pos []).getD t 0 + 1)) * net.flows.getD t 0
    minutes_remaining := s.minutes_remaining - ((net.dists.getD s.pos []).getD t 0 + 1)
    pos := t }

/-- Reachability along `State::branch` transitions (reflexive-transitive). -/
inductive Reach (net : Network) : State → State → Prop
  | refl (s : State) : Reach net s s
  | step {s s1 s2 : State} : s1 ∈ s.branch net → Reach net s1 s2 → Reach net s s2

/-- Well-formedness of a reduced network, as `Task::from_str` establishes it:
the flows, the square distance matrix and the index list agree in size, the
distance between two distinct valves is at least 1 (all tunnel edges have
weight 1), and `sorted_indexes` lists distinct indices covering the flows in
descending flow order.  All clauses are decidable, so concrete networks can
be checked with `decide`. -/
def Network.Valid (net : Network) : Prop :=
  net.flows.length = net.dists.length ∧
  (∀ row ∈ net.dists, row.length = net.dists.length) ∧
  (∀ i ∈ List.range net.dists.length, ∀ j ∈ List.range net.dists.length,
    i ≠ j → 1 ≤ (net.dists.getD i []).getD j 0) ∧
  net.sorted_indexes.Nodup ∧
  (∀ i ∈ List.range net.flows.length, i ∈ net.sorted_indexes) ∧
  List.Pairwise (fun a b => b ≤ a) (net.sorted_indexes.map (fun i => net.flows.getD i 0))

instance (net : Network) : Decidable net.Valid :=
  inferInstanceAs (Decidable (_ ∧ _ ∧ _ ∧ _ ∧ _ ∧ _))

/-- Wrapped `State::branch` under Rust release-mode `u16` semantics: the product
`minutes_remaining as u16 * flow as u16` and the pressure accumulation both
wrap at `2^16 = 65536`. -/
def State.branch16 (s : State) (net : Network) : List State :=
  ((net.dists.getD s.pos []).enum.filter (fun p => s.can_visit p.1)).filterMap
    (fun p =>
      if p.2 + 1 ≤ s.minutes_remaining then
        some { visited := s.visited ||| (1 <<< p.1)
               avoid := s.avoid
               pressure_released :=
                 (s.pressure_released +
                   (s.minutes_remaining - (p.2 + 1)) * net.flows.getD p.1 0 % 65536) % 65536
               minutes_remaining := s.minutes_remaining - (p.2 + 1)
               pos := p.1 }
      else none)

/-- Wrapped `State::bound` under `u16` semantics: each product wraps at `2^16`, the
`sum::<u16>()` accumulates with wrapping additions, and the final addition of
`pressure_released` wraps. -/
def State.bound16 (s : State) (net : Network) : Nat :=
  ((((slots s.minutes_remaining).zip (net.availFlows s)).map
      (fun p => p.1 * p.2 % 65536)).foldl (fun acc x => (acc + x) % 65536) 0 +
    s.pressure_released) % 65536

/-- Reachability along wrapped `State.branch16` transitions. -/
inductive Reach16 (net : Network) : State → State → Prop
  | refl (s : State) : Reach16 net s s
  | step {s s1 s2 : State} : s1 ∈ s.branch16 net → Reach16 net s1 s2 → Reach16 net s s2

/-- All ordered pairs `(l[i], l[j])` with `i < j`. -/
def allPairs : List α → List (α × α)
  | [] => []
  | x :: xs => xs.map (fun y => (x, y)) ++ allPairs xs

/-- The specification of the two-agent combiner, following the spec's words:
the maximum of `value_i + value_j` over all pairs `i < j` whose masks are
disjoint, and 0 when no such pair exists. -/
def bestDisjointPairSpec (l : List (Nat × Nat)) : Nat :=
  (((allPairs l).filter (fun p => p.1.1 &&& p.2.1 == 0)).map
    (fun p => p.1.2 + p.2.2)).foldr max 0

/-- The reduced network that `Task::from_str` produces from the canonical
example (proved as such below). -/
def exNet : Network :=
  { flows := [0, 13, 2, 20, 3, 22, 21]
    sorted_indexes := [5, 6, 3, 1, 4, 2, 0]
    dists := [ [0, 1, 2, 1, 2, 5, 2]
      , [1, 0, 1, 2, 3, 6, 3]
      , [2, 1, 0, 1, 2, 5, 4]
      , [1, 2, 1, 0, 1, 4, 3]
      , [2, 3, 2, 1, 0, 3, 4]
      , [5, 6, 5, 4, 3, 0, 7]
      , [2, 3, 4, 3, 4, 7, 0] ] }

/-- The first 128 entries of the per-mask table the loose 26-minute search
fills on `exNet` (all other entries stay 0: every reachable mask uses only
the 7 low bits). -/
def exTbl128 : List Nat :=
  [0, 0, 312, 0, 46, 0, 356, 0, 480, 0, 753, 0, 524, 0, 791, 0,
   69, 0, 372, 0, 109, 0, 413, 0, 546, 0, 804, 0, 584, 0, 839, 0,
   440, 0, 686, 0, 468, 0, 708, 0, 898, 0, 1084, 0, 924, 0, 1104, 0,
   488, 0, 725, 0, 514, 0, 745, 0, 943, 0, 1120, 0, 967, 0, 1138, 0,
   483, 0, 732, 0, 519, 0, 764, 0, 900, 0, 1110, 0, 930, 0, 1136, 0,
   537, 0, 777, 0, 567, 0, 806, 0, 945, 0, 1146, 0, 969, 0, 1169, 0,
   813, 0, 996, 0, 831, 0, 1008, 0, 1171, 0, 1308, 0, 1187, 0, 1314, 0,
   846, 0, 1020, 0, 862, 0, 1030, 0, 1201, 0, 1323, 0, 1215, 0, 1327, 0]

/-- Floyd-Warshall stage 0 on the example valves. -/
def exFW0 : Distances :=
  [[0, 1, 255, 1, 255, 255, 255, 255, 1, 255], [1, 0, 1, 255, 255, 255, 255, 255, 255, 255], [255, 1, 0, 1, 255, 255, 255, 255, 255, 255], [1, 255, 1, 0, 1, 255, 255, 255, 255, 255], [255, 255, 255, 1, 0, 1, 255, 255, 255, 255], [255, 255, 255, 255, 1, 0, 1, 255, 255, 255], [255, 255, 255, 255, 255, 1, 0, 1, 255, 255], [255, 255, 255, 255, 255, 255, 1, 0, 255, 255], [1, 255, 255, 255, 255, 255, 255, 255, 0, 1], [255, 255, 255, 255, 255, 255, 255, 255, 1, 0]]

/-- Floyd-Warshall stage 1 on the example valves. -/
def exFW1 : Distances :=
  [[0, 1, 255, 1, 255, 255, 255, 255, 1, 255], [1, 0, 1, 2, 255, 255, 255, 255, 2, 255], [255, 1, 0, 1, 255, 255, 255, 255, 255, 255], [1, 2, 1, 0, 1, 255, 255, 255, 2, 255], [255, 255, 255, 1, 0, 1, 255, 255, 255, 255], [255, 255, 255, 255, 1, 0, 1, 255, 255, 255], [255, 255, 255, 255, 255, 1, 0, 1, 255, 255], [255, 255, 255, 255, 255, 255, 1, 0, 255, 255], [1, 2, 255, 2, 255, 255, 255, 255, 0, 1], [255, 255, 255, 255, 255, 255, 255, 255, 1, 0]]

/-- Floyd-Warshall stage 2 on the example valves. -/
def exFW2 : Distances :=
  [[0, 1, 2, 1, 255, 255, 255, 255, 1, 255], [1, 0, 1, 2, 255, 255, 255, 255, 2, 255], [2, 1, 0, 1, 255, 255, 255, 255, 3, 255], [1, 2, 1, 0, 1, 255, 255, 255, 2, 255], [255, 255, 255, 1, 0, 1, 255, 255, 255, 255], [255, 255, 255, 255, 1, 0, 1, 255, 255, 255], [255, 255, 255, 255, 255, 1, 0, 1, 255, 255], [255, 255, 255, 255, 255, 255, 1, 0, 255, 255], [1, 2, 3, 2, 255, 255, 255, 255, 0, 1], [255, 255, 255, 255, 255, 255, 255, 255, 1, 0]]

/-- Floyd-Warshall stage 3 on the example valves. -/
def exFW3 : Distances :=
  [[0, 1, 2, 1, 255, 255, 255, 255, 1, 255], [1, 0, 1, 2, 255, 255, 255, 255, 2, 255], [2, 1, 0, 1, 255, 255, 255, 255, 3, 255], [1, 2, 1, 0, 1, 255, 255, 255, 2, 255], [255, 255, 255, 1, 0, 1, 255, 255, 255, 255], [255, 255, 255, 255, 1, 0, 1, 255, 255, 255], [255, 255, 255, 255, 255, 1, 0, 1, 255, 255], [255, 255, 255, 255, 255, 255, 1, 0, 255, 255], [1, 2, 3, 2, 255, 255, 255, 255, 0, 1], [255, 255, 255, 255, 255, 255, 255, 255, 1, 0]]

/-- Floyd-Warshall stage 4 on the example valves. -/
def exFW4 : Distances :=
  [[0, 1, 2, 1, 2, 255, 255, 255, 1, 255], [1, 0, 1, 2, 3, 255, 255, 255, 2, 255], [2, 1, 0, 1, 2, 255, 255, 255, 3, 255], [1, 2, 1, 0, 1, 255, 255, 255, 2, 255], [2, 3, 2, 1, 0, 1, 255, 255, 3, 255], [255, 255, 255, 255, 1, 0, 1, 255, 255, 255], [255, 255, 255, 255, 255, 1, 0, 1, 255, 255], [255, 255, 255, 255, 255, 255, 1, 0, 255, 255], [1, 2, 3, 2, 3, 255, 255, 255, 0, 1], [255, 255, 255, 255, 255, 255, 255, 255, 1, 0]]

/-- Floyd-Warshall stage 5 on the example valves. -/
def exFW5 : Distances :=
  [[0, 1, 2, 1, 2, 3, 255, 255, 1, 255], [1, 0, 1, 2, 3, 4, 255, 255, 2, 255], [2, 1, 0, 1, 2, 3, 255, 255, 3, 255], [1, 2, 1, 0, 1, 2, 255, 255, 2, 255], [2, 3, 2, 1, 0, 1, 255, 255, 3, 255], [3, 4, 3, 2, 1, 0, 1, 255, 4, 255], [255, 255, 255, 255, 255, 1, 0, 1, 255, 255], [255, 255, 255, 255, 255, 255, 1, 0, 255, 255], [1, 2, 3, 2, 3, 4, 255, 255, 0, 1], [255, 255, 255, 255, 255, 255, 255, 255, 1, 0]]

/-- Floyd-Warshall stage 6 on the example valves. -/
def exFW6 : Distances :=
  [[0, 1, 2, 1, 2, 3, 4, 255, 1, 255], [1, 0, 1, 2, 3, 4, 5, 255, 2, 255], [2, 1, 0, 1, 2, 3, 4, 255, 3, 255], [1, 2, 1, 0, 1, 2, 3, 255, 2, 255], [2, 3, 2, 1, 0, 1, 2, 255, 3, 255], [3, 4, 3, 2, 1, 0, 1, 255, 4, 255], [4, 5, 4, 3, 2, 1, 0, 1, 5, 255], [255, 255, 255, 255, 255, 255, 1, 0, 255, 255], [1, 2, 3, 2, 3, 4, 5, 255, 0, 1], [255, 255, 255, 255, 255, 255, 255, 255, 1, 0]]

/-- Floyd-Warshall stage 7 on the example valves. -/
def exFW7 : Distances :=
  [[0, 1, 2, 1, 2, 3, 4, 5, 1, 255], [1, 0, 1, 2, 3, 4, 5, 6, 2, 255], [2, 1, 0, 1, 2, 3, 4, 5, 3, 255], [1, 2, 1, 0, 1, 2, 3, 4, 2, 255], [2, 3, 2, 1, 0, 1, 2, 3, 3, 255], [3, 4, 3, 2, 1, 0, 1, 2, 4, 255], [4, 5, 4, 3, 2, 1, 0, 1, 5, 255], [5, 6, 5, 4, 3, 2, 1, 0, 6, 255], [1, 2, 3, 2, 3, 4, 5, 6, 0, 1], [255, 255, 255, 255, 255, 255, 255, 255, 1, 0]]

/-- Floyd-Warshall stage 8 on the example valves. -/
def exFW8 : Distances :=
  [[0, 1, 2, 1, 2, 3, 4, 5, 1, 255], [1, 0, 1, 2, 3, 4, 5, 6, 2, 255], [2, 1, 0, 1, 2, 3, 4, 5, 3, 255], [1, 2, 1, 0, 1, 2, 3, 4, 2, 255], [2, 3, 2, 1, 0, 1, 2, 3, 3, 255], [3, 4, 3, 2, 1, 0, 1, 2, 4, 255], [4, 5, 4, 3, 2, 1, 0, 1, 5, 255], [5, 6, 5, 4, 3, 2, 1, 0, 6, 255], [1, 2, 3, 2, 3, 4, 5, 6, 0, 1], [255, 255, 255, 255, 255, 255, 255, 255, 1, 0]]

/-- Floyd-Warshall stage 9 on the example valves. -/
def exFW9 : Distances :=
  [[0, 1, 2, 1, 2, 3, 4, 5, 1, 2], [1, 0, 1, 2, 3, 4, 5, 6, 2, 3], [2, 1, 0, 1, 2, 3, 4, 5, 3, 4], [1, 2, 1, 0, 1, 2, 3, 4, 2, 3], [2, 3, 2, 1, 0, 1, 2, 3, 3, 4], [3, 4, 3, 2, 1, 0, 1, 2, 4, 5], [4, 5, 4, 3, 2, 1, 0, 1, 5, 6], [5, 6, 5, 4, 3, 2, 1, 0, 6, 7], [1, 2, 3, 2, 3, 4, 5, 6, 0, 1], [2, 3, 4, 3, 4, 5, 6, 7, 1, 0]]

/-- Floyd-Warshall stage 10 on the example valves. -/
def exFW10 : Distances :=
  [[0, 1, 2, 1, 2, 3, 4, 5, 1, 2], [1, 0, 1, 2, 3, 4, 5, 6, 2, 3], [2, 1, 0, 1, 2, 3, 4, 5, 3, 4], [1, 2, 1, 0, 1, 2, 3, 4, 2, 3], [2, 3, 2, 1, 0, 1, 2, 3, 3, 4], [3, 4, 3, 2, 1, 0, 1, 2, 4, 5], [4, 5, 4, 3, 2, 1, 0, 1, 5, 6], [5, 6, 5, 4, 3, 2, 1, 0, 6, 7], [1, 2, 3, 2, 3, 4, 5, 6, 0, 1], [2, 3, 4, 3, 4, 5, 6, 7, 1, 0]]

/-- The per-mask table after the first 1 root subtrees of the loose 26-minute search on `exNet`. -/
def exSubT1 : List Nat :=
  [0, 0, 0, 0, 0, 0, 0, 0, 480, 0, 753, 0, 524, 0, 791, 0, 0, 0, 0, 0, 0, 0, 0, 0, 546, 0, 804, 0, 584, 0, 839, 0, 0, 0, 0, 0, 0, 0, 0, 0, 898, 0, 1061, 0, 924, 0, 1077, 0, 0, 0, 0, 0, 0, 0, 0, 0, 943, 0, 1091, 0, 967, 0, 1105, 0, 0, 0, 0, 0, 0, 0, 0, 0, 900, 0, 1110, 0, 930, 0, 1136, 0, 0, 0, 0, 0, 0, 0, 0, 0, 945, 0, 1146, 0, 969, 0, 1169, 0, 0, 0, 0, 0, 0, 0, 0, 0, 1164, 0, 1308, 0, 1176, 0, 1314, 0, 0, 0, 0, 0, 0, 0, 0, 0, 1188, 0, 1323, 0, 1198, 0, 1327, 0]

/-- The per-mask table after the first 2 root subtrees of the loose 26-minute search on `exNet`. -/
def exSubT2 : List Nat :=
  [0, 0, 312, 0, 0, 0, 356, 0, 480, 0, 753, 0, 524, 0, 791, 0, 0, 0, 372, 0, 0, 0, 413, 0, 546, 0, 804, 0, 584, 0, 839, 0, 0, 0, 686, 0, 0, 0, 708, 0, 898, 0, 1084, 0, 924, 0, 1104, 0, 0, 0, 725, 0, 0, 0, 745, 0, 943, 0, 1120, 0, 967, 0, 1138, 0, 0, 0, 732, 0, 0, 0, 762, 0, 900, 0, 1110, 0, 930, 0, 1136, 0, 0, 0, 777, 0, 0, 0, 801, 0, 945, 0, 1146, 0, 969, 0, 1169, 0, 0, 0, 996, 0, 0, 0, 1008, 0, 1164, 0, 1308, 0, 1176, 0, 1314, 0, 0, 0, 1020, 0, 0, 0, 1030, 0, 1188, 0, 1323, 0, 1198, 0, 1327, 0]

/-- The per-mask table after the first 3 root subtrees of the loose 26-minute search on `exNet`. -/
def exSubT3 : List Nat :=
  [0, 0, 312, 0, 0, 0, 356, 0, 480, 0, 753, 0, 524, 0, 791, 0, 0, 0, 372, 0, 0, 0, 413, 0, 546, 0, 804, 0, 584, 0, 839, 0, 0, 0, 686, 0, 0, 0, 708, 0, 898, 0, 1084, 0, 924, 0, 1104, 0, 0, 0, 725, 0, 0, 0, 745, 0, 943, 0, 1120, 0, 967, 0, 1138, 0, 483, 0, 732, 0, 519, 0, 764, 0, 900, 0, 1110, 0, 930, 0, 1136, 0, 537, 0, 777, 0, 567, 0, 806, 0, 945, 0, 1146, 0, 969, 0, 1169, 0, 813, 0, 996, 0, 831, 0, 1008, 0, 1171, 0, 1308, 0, 1187, 0, 1314, 0, 846, 0, 1020, 0, 862, 0, 1030, 0, 1201, 0, 1323, 0, 1215, 0, 1327, 0]

/-- The per-mask table after the first 4 root subtrees of the loose 26-minute search on `exNet`. -/
def exSubT4 : List Nat :=
  [0, 0, 312, 0, 0, 0, 356, 0, 480, 0, 753, 0, 524, 0, 791, 0, 69, 0, 372, 0, 109, 0, 413, 0, 546, 0, 804, 0, 584, 0, 839, 0, 0, 0, 686, 0, 0, 0, 708, 0, 898, 0, 1084, 0, 924, 0, 1104, 0, 487, 0, 725, 0, 513, 0, 745, 0, 943, 0, 1120, 0, 967, 0, 1138, 0, 483, 0, 732, 0, 519, 0, 764, 0, 900, 0, 1110, 0, 930, 0, 1136, 0, 537, 0, 777, 0, 567, 0, 806, 0, 945, 0, 1146, 0, 969, 0, 1169, 0, 813, 0, 996, 0, 831, 0, 1008, 0, 1171, 0, 1308, 0, 1187, 0, 1314, 0, 846, 0, 1020, 0, 862, 0, 1030, 0, 1201, 0, 1323, 0, 1215, 0, 1327, 0]

/-- The per-mask table after the first 5 root subtrees of the loose 26-minute search on `exNet`. -/
def exSubT5 : List Nat :=
  [0, 0, 312, 0, 46, 0, 356, 0, 480, 0, 753, 0, 524, 0, 791, 0, 69, 0, 372, 0, 109, 0, 413, 0, 546, 0, 804, 0, 584, 0, 839, 0, 0, 0, 686, 0, 420, 0, 708, 0, 898, 0, 1084, 0, 924, 0, 1104, 0, 487, 0, 725, 0, 513, 0, 745, 0, 943, 0, 1120, 0, 967, 0, 1138, 0, 483, 0, 732, 0, 519, 0, 764, 0, 900, 0, 1110, 0, 930, 0, 1136, 0, 537, 0, 777, 0, 567, 0, 806, 0, 945, 0, 1146, 0, 969, 0, 1169, 0, 813, 0, 996, 0, 831, 0, 1008, 0, 1171, 0, 1308, 0, 1187, 0, 1314, 0, 846, 0, 1020, 0, 862, 0, 1030, 0, 1201, 0, 1323, 0, 1215, 0, 1327, 0]


/-- A reduced two-valve network: the start (flow 0) linked to a single valve
of flow 1 one step away. -/
def tinyNet : Network :=
  { flows := [0, 1], sorted_indexes := [1, 0], dists := [[0, 1], [1, 0]] }

/-- A reduced network with two maximal-`u8` flows, whose optimistic bound at
a 255-minute budget exceeds `u16`. -/
def bigNet : Network :=
  { flows := [0, 255, 255]
    sorted_indexes := [1, 2, 0]
    dists := [[0, 1, 1], [1, 0, 1], [1, 1, 0]] }

/-! ## Characterization of `State.branch` -/

/-- Unfolding of one `branch_and_bound` call in terms of `bbFold`. -/
theorem bb_unfold (net : Network) (filter_bound : Nat → Nat → Bool) (fuel : Nat)
    (s : State) (tbl : List Nat) (ans : Nat) :
    net.branch_and_bound filter_bound (fuel + 1) s tbl ans =
      (sortByKeyDesc (fun p => p.1)
        (((s.branch net).map (fun st => (st.bound net, st))).filter
          (fun p => filter_bound p.1 (max s.pressure_released ans)))).foldl
        (bbFold net filter_bound fuel)
        (tableUpdate tbl s.visited s.pressure_released, max s.pressure_released ans) := rfl

theorem mem_branch_iff {net : Network} {s s1 : State} :
    s1 ∈ s.branch net ↔ ∃ t, t < (net.dists.getD s.pos []).length ∧ s.can_visit t = true ∧
      (net.dists.getD s.pos []).getD t 0 + 1 ≤ s.minutes_remaining ∧
      s1 = s.child net t := by
  unfold State.branch
  simp only [List.mem_filterMap, List.mem_filter, List.mem_enum_iff_get?]
  constructor
  · rintro ⟨⟨t, d⟩, ⟨hget, hq⟩, hg⟩
    have hlt : t < (net.dists.getD s.pos []).length := by
      have := List.get?_eq_some.mp hget
      exact this.1
    have hd : (net.dists.getD s.pos []).getD t 0 = d := by
      rw [List.getD_eq_getElem?_getD, ← List.get?_eq_getElem?]
      exact congrArg (Option.getD · 0) hget
    rw [Option.ite_none_right_eq_some] at hg
    obtain ⟨hle', hs⟩ := hg
    refine ⟨t, hlt, hq, by rw [hd]; exact hle', ?_⟩
    rw [← Option.some.inj hs]
    simp only [State.child, List.getD_eq_getElem?_getD] at hd ⊢
    simp [hd]
  · rintro ⟨t, hlt, hcv, hle, rfl⟩
    refine ⟨⟨t, (net.dists.getD s.pos []).getD t 0⟩, ⟨?_, hcv⟩, ?_⟩
    · set l := net.dists.getD s.pos [] with hl
      rw [List.getD_eq_getElem?_getD, List.get?_eq_getElem?, List.getElem?_eq_getElem hlt]
      simp
    · rw [Option.ite_none_right_eq_some]
      exact ⟨hle, rfl⟩

/-! ## Bitmask helpers -/

theorem and_one_shift_eq_zero_iff (x i : Nat) : x &&& (1 <<< i) = 0 ↔ x.testBit i = false := by
  rw [Nat.one_shiftLeft, Nat.and_two_pow]
  cases h : x.testBit i <;> simp [Nat.pow_eq_zero]

theorem can_visit_iff {s : State} {i : Nat} :
    s.can_visit i = true ↔ (s.visited ||| s.avoid).testBit i = false := by
  rw [State.can_visit, beq_iff_eq, and_one_shift_eq_zero_iff]

theorem can_visit_child_iff {net : Network} {s : State} {t i : Nat} :
    (s.child net t).can_visit i = true ↔ (s.can_visit i = true ∧ i ≠ t) := by
  rw [can_visit_iff, can_visit_iff]
  show ((s.visited ||| 1 <<< t) ||| s.avoid).testBit i = false ↔ _
  rw [Nat.one_shiftLeft]
  simp only [Nat.testBit_or, Nat.testBit_two_pow]
  constructor
  · intro h
    simp only [Bool.or_eq_false_iff] at h
    obtain ⟨⟨h1, h2⟩, h3⟩ := h
    refine ⟨by simp [h1, h3], ?_⟩
    intro hti
    rw [hti] at h2
    simp at h2
  · rintro ⟨h1, h2⟩
    simp only [Bool.or_eq_false_iff] at h1 ⊢
    exact ⟨⟨h1.1, by simp [Ne.symm h2]⟩, h1.2⟩

/-- The invariants of one `State::branch` transition, as helper facts:
minutes strictly decrease, the bitmask only gains bits, pressure does not
decrease, the avoid mask is unchanged, and the new position cannot be
revisited. -/
theorem branch_step_facts {net : Network} {s s1 : State} (h : s1 ∈ s.branch net) :
    s1.minutes_remaining < s.minutes_remaining ∧
    (∀ j, s.visited.testBit j = true → s1.visited.testBit j = true) ∧
    s.pressure_released ≤ s1.pressure_released ∧
    s1.avoid = s.avoid ∧
    s1.can_visit s1.pos = false := by
  obtain ⟨t, hlt, hcv, hle, rfl⟩ := mem_branch_iff.mp h
  refine ⟨by simp [State.child]; omega, ?_, ?_, rfl, ?_⟩
  · intro j hj
    show (s.visited ||| 1 <<< t).testBit j = true
    simp [Nat.testBit_or, hj]
  · exact Nat.le_add_right _ _
  · show (s.child net t).can_visit t = false
    cases hvis : (s.child net t).can_visit t
    · rfl
    · exact absurd ((can_visit_child_iff.mp hvis).2 rfl) (by simp)

/-! ## Arithmetic of the optimistic minute slots -/

theorem sumSlots_nil (m : Nat) : sumSlots m [] = 0 := by
  simp [sumSlots]

theorem sumSlots_lt_two {m : Nat} (h : m < 2) (l : List Nat) : sumSlots m l = 0 := by
  interval_cases m <;> simp [sumSlots, slots]

theorem sumSlots_cons (m x : Nat) (l : List Nat) :
    sumSlots (m + 2) (x :: l) = m * x + sumSlots m l := rfl

theorem sumSlots_le_succ (m : Nat) : ∀ l : List Nat, sumSlots m l ≤ sumSlots (m + 1) l := by
  induction m using Nat.strong_induction_on with
  | _ m ih =>
    match m with
    | 0 => intro l; rw [sumSlots_lt_two (by omega)]; exact Nat.zero_le _
    | 1 => intro l; rw [sumSlots_lt_two (by omega)]; exact Nat.zero_le _
    | k + 2 =>
      intro l
      match l with
      | [] => rw [sumSlots_nil, sumSlots_nil]
      | x :: xs =>
        rw [sumSlots_cons]
        have h2 : sumSlots (k + 2 + 1) (x :: xs) = (k + 1) * x + sumSlots (k + 1) xs := rfl
        rw [h2]
        exact Nat.add_le_add (Nat.mul_le_mul (Nat.le_succ k) (Nat.le_refl x))
          (ih k (by omega) xs)

theorem sumSlots_mono {m m' : Nat} (h : m ≤ m') (l : List Nat) :
    sumSlots m l ≤ sumSlots m' l := by
  induction h with
  | refl => exact Nat.le_refl _
  | step _ ih => exact Nat.le_trans ih (sumSlots_le_succ _ l)

/-- Exchange lemma for the bound: removing one flow `f` from a descending
flow list and granting it the first slot, with all later slots shifted down
two minutes, can only decrease the slot sum. -/
theorem sumSlots_extract (f : Nat) :
    ∀ (u v : List Nat) (m : Nat), 2 ≤ m →
      List.Pairwise (fun a b => b ≤ a) (u ++ f :: v) →
      f * (m - 2) + sumSlots (m - 2) (u ++ v) ≤ sumSlots m (u ++ f :: v) := by
  intro u
  induction u with
  | nil =>
    intro v m hm _
    obtain ⟨k, rfl⟩ : ∃ k, m = k + 2 := ⟨m - 2, by omega⟩
    rw [show k + 2 - 2 = k from by omega]
    simp only [List.nil_append]
    rw [sumSlots_cons, Nat.mul_comm]
  | cons a u ih =>
    intro v m hm hpw
    obtain ⟨k, rfl⟩ : ∃ k, m = k + 2 := ⟨m - 2, by omega⟩
    rw [show k + 2 - 2 = k from by omega]
    have haf : f ≤ a := (List.pairwise_cons.mp hpw).1 f (by simp)
    have hpw' : List.Pairwise (fun a b => b ≤ a) (u ++ f :: v) :=
      (List.pairwise_cons.mp hpw).2
    simp only [List.cons_append]
    rw [sumSlots_cons]
    by_cases hk : k < 2
    · rw [sumSlots_lt_two hk, sumSlots_lt_two hk]
      have : f * k ≤ k * a := by
        rw [Nat.mul_comm f k]
        exact Nat.mul_le_mul (Nat.le_refl k) haf
      omega
    · push_neg at hk
      obtain ⟨q, rfl⟩ : ∃ q, k = q + 2 := ⟨k - 2, by omega⟩
      rw [sumSlots_cons]
      have hih := ih v (q + 2) (by omega) hpw'
      rw [show q + 2 - 2 = q from by omega] at hih
      have key : f * (q + 2) + q * a ≤ (q + 2) * a + f * q := by
        have h1 : f * (q + 2) = f * q + 2 * f := by ring
        have h2 : (q + 2) * a = q * a + 2 * a := by ring
        have h3 : 2 * f ≤ 2 * a := by omega
        linarith
      linarith

/-! ## Bound monotonicity along transitions -/

theorem can_visit_child_eq {net : Network} {s : State} {t i : Nat} :
    (s.child net t).can_visit i = (s.can_visit i && !(i == t)) := by
  cases h : s.can_visit i && !(i == t)
  · cases hc : (s.child net t).can_visit i
    · rfl
    · obtain ⟨h1, h2⟩ := can_visit_child_iff.mp hc
      rw [h1] at h
      simpa [h2] using h
  · obtain ⟨h1, h2⟩ := Bool.and_eq_true_iff.mp h
    exact can_visit_child_iff.mpr ⟨h1, by simpa using h2⟩

theorem availFlows_pairwise {net : Network} (hv : net.Valid) (s : State) :
    List.Pairwise (fun a b => b ≤ a) (net.availFlows s) := by
  exact hv.2.2.2.2.2.sublist ((List.filter_sublist _).map _)

theorem availFlows_child {net : Network} (hv : net.Valid) {s : State} {t : Nat}
    (ht : t < net.flows.length) (hcv : s.can_visit t = true) :
    ∃ u v, net.availFlows s = u ++ net.flows.getD t 0 :: v ∧
      net.availFlows (s.child net t) = u ++ v := by
  have hnd : (net.sorted_indexes.filter (fun i => s.can_visit i)).Nodup :=
    hv.2.2.2.1.filter _
  have htf : t ∈ net.sorted_indexes.filter (fun i => s.can_visit i) :=
    List.mem_filter.mpr ⟨hv.2.2.2.2.1 t (List.mem_range.mpr ht), hcv⟩
  obtain ⟨l1, l2, hsplit⟩ := List.append_of_mem htf
  rw [hsplit] at hnd
  have hd := List.nodup_append.mp hnd
  have ht1 : t ∉ l1 := fun hm => hd.2.2 hm (List.mem_cons_self t l2)
  have ht2 : t ∉ l2 := (List.nodup_cons.mp hd.2.1).1
  refine ⟨l1.map (fun i => net.flows.getD i 0), l2.map (fun i => net.flows.getD i 0), ?_, ?_⟩
  · rw [Network.availFlows, hsplit, List.map_append, List.map_cons]
  · rw [Network.availFlows]
    have hcong : net.sorted_indexes.filter (fun i => (s.child net t).can_visit i) =
        net.sorted_indexes.filter (fun i => !(i == t) && s.can_visit i) := by
      apply List.filter_congr
      intro a _
      rw [can_visit_child_eq, Bool.and_comm]
    rw [hcong, ← List.filter_filter, hsplit, List.filter_append, List.filter_cons_of_neg,
      List.filter_eq_self.mpr, List.filter_eq_self.mpr, List.map_append]
    · intro a ha
      have hmem : a ∈ List.filter (fun i => s.can_visit i) net.sorted_indexes := by
        rw [hsplit]
        exact List.mem_append_right l1 (List.mem_cons_of_mem t ha)
      have hne : a ≠ t := fun h => ht2 (h ▸ ha)
      simp [(List.mem_filter.mp hmem).2, hne]
    · intro a ha
      have hmem : a ∈ List.filter (fun i => s.can_visit i) net.sorted_indexes := by
        rw [hsplit]
        exact List.mem_append_left _ ha
      have hne : a ≠ t := fun h => ht1 (h ▸ ha)
      simp [(List.mem_filter.mp hmem).2, hne]
    · simp

/-- The bound of a successor never exceeds the bound of its parent: the
pruning estimator is monotone along `State::branch` transitions
(`hpos` records that reachable states cannot revisit their position). -/
theorem bound_le_of_branch {net : Network} (hv : net.Valid) {s s1 : State}
    (hpos : s.can_visit s.pos = false) (h : s1 ∈ s.branch net) :
    s1.bound net ≤ s.bound net := by
  obtain ⟨t, hlt, hcv, hle, rfl⟩ := mem_branch_iff.mp h
  have hposlt : s.pos < net.dists.length := by
    by_contra hge
    push_neg at hge
    rw [List.getD_eq_default _ _ hge] at hlt
    simp at hlt
  have hrow : (net.dists.getD s.pos []) ∈ net.dists := by
    rw [List.getD_eq_getElem _ _ hposlt]
    exact List.getElem_mem hposlt
  have hrlen : (net.dists.getD s.pos []).length = net.dists.length := hv.2.1 _ hrow
  have htn : t < net.dists.length := hrlen ▸ hlt
  have htp : t ≠ s.pos := by
    intro heq
    rw [heq, hpos] at hcv
    exact absurd hcv (by simp)
  have hd1 : 1 ≤ (net.dists.getD s.pos []).getD t 0 :=
    hv.2.2.1 s.pos (List.mem_range.mpr hposlt) t (List.mem_range.mpr htn) (Ne.symm htp)
  have htflow : t < net.flows.length := hv.1 ▸ htn
  obtain ⟨u, v, hsplit, hchild⟩ := availFlows_child hv htflow hcv
  have hm2 : 2 ≤ s.minutes_remaining := by omega
  have hm1 : s.minutes_remaining - ((net.dists.getD s.pos []).getD t 0 + 1) ≤
      s.minutes_remaining - 2 := by omega
  have hb1 : (s.child net t).bound net =
      sumSlots (s.minutes_remaining - ((net.dists.getD s.pos []).getD t 0 + 1)) (u ++ v) +
        (s.pressure_released +
          (s.minutes_remaining - ((net.dists.getD s.pos []).getD t 0 + 1)) *
            net.flows.getD t 0) := by
    rw [State.bound, hchild]
    simp [State.child]
  have hb2 : s.bound net =
      sumSlots s.minutes_remaining (u ++ net.flows.getD t 0 :: v) + s.pressure_released := by
    rw [State.bound, hsplit]
  rw [hb1, hb2]
  have h1 : sumSlots (s.minutes_remaining - ((net.dists.getD s.pos []).getD t 0 + 1)) (u ++ v) ≤
      sumSlots (s.minutes_remaining - 2) (u ++ v) := sumSlots_mono hm1 _
  have h2 : (s.minutes_remaining - ((net.dists.getD s.pos []).getD t 0 + 1)) *
      net.flows.getD t 0 ≤ (s.minutes_remaining - 2) * net.flows.getD t 0 :=
    Nat.mul_le_mul hm1 (Nat.le_refl _)
  have h3 := sumSlots_extract (net.flows.getD t 0) u v s.minutes_remaining hm2
    (hsplit ▸ availFlows_pairwise hv s)
  linarith

/-- Pressure already released never exceeds the bound. -/
theorem pressure_le_bound (net : Network) (s : State) :
    s.pressure_released ≤ s.bound net :=
  Nat.le_add_left _ _

/-- C1: Bound soundness.  For every reachable search state (any state that
cannot revisit its own position, as all states reachable from `State::new`
satisfy), the value of `State::bound` is greater than or equal to the
pressure released by every state reachable from it through `State::branch`,
itself included: the pruning estimator never underestimates the true
optimum. -/
theorem bound_never_underestimates {net : Network} (hv : net.Valid) :
    ∀ {s s2 : State}, Reach net s s2 → s.can_visit s.pos = false →
      s2.pressure_released ≤ s.bound net := by
  intro s s2 h
  induction h with
  | refl s => exact fun _ => pressure_le_bound net s
  | step hmem _ ih =>
    intro hpos
    exact Nat.le_trans (ih (branch_step_facts hmem).2.2.2.2)
      (bound_le_of_branch hv hpos hmem)

theorem bound_never_underestimates_witness :
    exNet.Valid ∧ (State.new 0 26).can_visit (State.new 0 26).pos = false ∧
      ({ visited := 8, avoid := 1, pressure_released := 480, minutes_remaining := 24,
         pos := 3 } : State).pressure_released ≤ (State.new 0 26).bound exNet :=
  ⟨by decide, by decide,
    bound_never_underestimates (by decide)
      (Reach.step (by decide) (Reach.refl _)) (by decide)⟩

/-- C6: Transition invariants.  Every successor produced by `State::branch`
has strictly fewer remaining minutes, a visited bitmask that contains every
bit of its parent's, and at least as much released pressure. -/
theorem branch_invariants {net : Network} {s s1 : State} (h : s1 ∈ s.branch net) :
    s1.minutes_remaining < s.minutes_remaining ∧
    (∀ j, s.visited.testBit j = true → s1.visited.testBit j = true) ∧
    s.pressure_released ≤ s1.pressure_released :=
  ⟨(branch_step_facts h).1, (branch_step_facts h).2.1, (branch_step_facts h).2.2.1⟩

theorem branch_invariants_witness :
    ({ visited := 8, avoid := 1, pressure_released := 480, minutes_remaining := 24,
       pos := 3 } : State) ∈ (State.new 0 26).branch exNet ∧
    ({ visited := 8, avoid := 1, pressure_released := 480, minutes_remaining := 24,
       pos := 3 } : State).minutes_remaining < (State.new 0 26).minutes_remaining ∧
    (State.new 0 26).pressure_released ≤
      ({ visited := 8, avoid := 1, pressure_released := 480, minutes_remaining := 24,
         pos := 3 } : State).pressure_released :=
  ⟨by decide,
    (@branch_invariants exNet (State.new 0 26)
      { visited := 8, avoid := 1, pressure_released := 480, minutes_remaining := 24,
        pos := 3 } (by decide)).1,
    (@branch_invariants exNet (State.new 0 26)
      { visited := 8, avoid := 1, pressure_released := 480, minutes_remaining := 24,
        pos := 3 } (by decide)).2.2⟩

/-- C4 counterexample: with `tinyNet` and two minutes remaining, the cost of
reaching valve 1 is `dist + 1 = 2`, which is not strictly less than the
remaining minutes; the claim predicts no successor, yet `State::branch`
produces one (`checked_sub` succeeds at equality). -/
theorem branch_at_exact_cost :
    (∃ s1 ∈ (State.new 0 2).branch tinyNet, s1.pos = 1) ∧
      ¬((tinyNet.dists.getD (State.new 0 2).pos []).getD 1 0 + 1 <
        (State.new 0 2).minutes_remaining) := by
  decide

/-- C4 (amended): `State::branch` yields a successor with target `t` exactly
when `t` is visitable (not yet opened and not the avoided start) and
`cost = dist + 1` is less than **or equal to** `minutes_remaining`; the
successor then carries exactly the fields of `State.child`:
`minutes_remaining - cost` minutes, `pressure + flow[t] * new_minutes`
pressure, `visited ||| (1 <<< t)` and position `t`. -/
theorem branch_mem_characterization {net : Network} {s s1 : State} :
    s1 ∈ s.branch net ↔ ∃ t, t < (net.dists.getD s.pos []).length ∧
      s.can_visit t = true ∧
      (net.dists.getD s.pos []).getD t 0 + 1 ≤ s.minutes_remaining ∧
      s1 = s.child net t :=
  mem_branch_iff

/-! ## Fuel irrelevance of the driver -/

theorem mem_insertDesc {key : α → Nat} {a x : α} : ∀ {l : List α},
    x ∈ insertDesc key a l ↔ x = a ∨ x ∈ l := by
  intro l
  induction l with
  | nil => simp [insertDesc]
  | cons b l ih =>
    rw [insertDesc]
    by_cases hk : key a < key b
    · rw [if_pos hk]
      simp only [List.mem_cons, ih]
      tauto
    · rw [if_neg hk]
      simp only [List.mem_cons]

theorem mem_sortByKeyDesc {key : α → Nat} {x : α} : ∀ {l : List α},
    x ∈ sortByKeyDesc key l ↔ x ∈ l := by
  intro l
  induction l with
  | nil => simp [sortByKeyDesc]
  | cons b l ih =>
    show x ∈ insertDesc key b (sortByKeyDesc key l) ↔ _
    rw [mem_insertDesc, ih]
    simp

theorem branch_eq_nil_of_no_minutes {net : Network} {s : State}
    (h : s.minutes_remaining = 0) : s.branch net = [] := by
  rw [List.eq_nil_iff_forall_not_mem]
  intro s1 hmem
  obtain ⟨t, _, _, hle, _⟩ := mem_branch_iff.mp hmem
  omega

theorem bb_fuel_aux (net : Network) (filt : Nat → Nat → Bool) :
    ∀ n : Nat, ∀ (s : State) (tbl : List Nat) (ans : Nat) (f1 f2 : Nat),
      s.minutes_remaining ≤ n → n < f1 → n < f2 →
      net.branch_and_bound filt f1 s tbl ans = net.branch_and_bound filt f2 s tbl ans := by
  intro n
  induction n with
  | zero =>
    intro s tbl ans f1 f2 hm h1 h2
    obtain ⟨a, rfl⟩ : ∃ a, f1 = a + 1 := ⟨f1 - 1, by omega⟩
    obtain ⟨b, rfl⟩ : ∃ b, f2 = b + 1 := ⟨f2 - 1, by omega⟩
    rw [bb_unfold, bb_unfold, branch_eq_nil_of_no_minutes (by omega)]
    rfl
  | succ n ih =>
    intro s tbl ans f1 f2 hm h1 h2
    obtain ⟨a, rfl⟩ : ∃ a, f1 = a + 1 := ⟨f1 - 1, by omega⟩
    obtain ⟨b, rfl⟩ : ∃ b, f2 = b + 1 := ⟨f2 - 1, by omega⟩
    rw [bb_unfold, bb_unfold]
    have main : ∀ (ps : List (Nat × State)), (∀ p ∈ ps, p.2.minutes_remaining ≤ n) →
        ∀ acc : List Nat × Nat,
          ps.foldl (bbFold net filt a) acc = ps.foldl (bbFold net filt b) acc := by
      intro ps
      induction ps with
      | nil => intro _ _; rfl
      | cons p ps ihps =>
        intro hps acc
        rw [List.foldl_cons, List.foldl_cons]
        have hstep : bbFold net filt a acc p = bbFold net filt b acc p := by
          unfold bbFold
          by_cases hc : filt p.1 acc.2 = true
          · rw [if_pos hc, if_pos hc]
            exact ih p.2 acc.1 acc.2 a b (hps p (by simp)) (by omega) (by omega)
          · rw [if_neg hc, if_neg hc]
        rw [hstep]
        exact ihps (fun q hq => hps q (List.mem_cons_of_mem p hq)) _
    apply main
    intro p hp
    rw [mem_sortByKeyDesc] at hp
    have hp2 := List.mem_filter.mp hp
    obtain ⟨st, hst, rfl⟩ := List.mem_map.mp hp2.1
    have := (branch_step_facts hst).1
    show st.minutes_remaining ≤ n
    omega

/-- C7: Termination.  The recursive search is a total function of its
inputs: since `minutes_remaining` strictly decreases along every transition
and is bounded below by 0, the driver's recursion depth is bounded by the
initial minutes, and any two fuel allowances exceeding that bound produce
the same result. -/
theorem branch_and_bound_terminates (net : Network) (filt : Nat → Nat → Bool)
    (s : State) (tbl : List Nat) (ans : Nat) (f1 f2 : Nat)
    (h1 : s.minutes_remaining < f1) (h2 : s.minutes_remaining < f2) :
    net.branch_and_bound filt f1 s tbl ans = net.branch_and_bound filt f2 s tbl ans :=
  bb_fuel_aux net filt s.minutes_remaining s tbl ans f1 f2 (Nat.le_refl _) h1 h2

theorem branch_and_bound_terminates_witness :
    tinyNet.branch_and_bound (fun bound best => decide (best < bound)) 4 (State.new 0 3) [] 0 =
      tinyNet.branch_and_bound (fun bound best => decide (best < bound)) 9 (State.new 0 3) [] 0 :=
  branch_and_bound_terminates _ _ _ _ _ _ _ (by decide) (by decide)

/-! ## The driver only touches the low part of the table -/

theorem tableUpdate_length (tbl : List Nat) (v p : Nat) :
    (tableUpdate tbl v p).length = tbl.length := by
  simp [tableUpdate]

theorem tableUpdate_append {tbl r : List Nat} {v : Nat} (p : Nat) (h : v < tbl.length) :
    tableUpdate (tbl ++ r) v p = tableUpdate tbl v p ++ r := by
  unfold tableUpdate
  rw [List.getD_append _ _ _ _ h, List.set_append_left _ _ h]

theorem bb_table_length (net : Network) (filt : Nat → Nat → Bool) :
    ∀ (fuel : Nat) (s : State) (tbl : List Nat) (ans : Nat),
      ((net.branch_and_bound filt fuel s tbl ans).1).length = tbl.length := by
  intro fuel
  induction fuel with
  | zero => intro s tbl ans; rfl
  | succ n ih =>
    intro s tbl ans
    rw [bb_unfold]
    have main : ∀ (ps : List (Nat × State)) (acc : List Nat × Nat),
        ((ps.foldl (bbFold net filt n) acc).1).length = acc.1.length := by
      intro ps
      induction ps with
      | nil => intro acc; rfl
      | cons p ps ihps =>
        intro acc
        rw [List.foldl_cons, ihps]
        unfold bbFold
        by_cases hc : filt p.1 acc.2 = true
        · rw [if_pos hc, ih]
        · rw [if_neg hc]
    rw [main]
    exact tableUpdate_length tbl s.visited s.pressure_released

theorem branch_visited_lt {net : Network} {L : Nat}
    (hrows : ∀ row ∈ net.dists, row.length ≤ L)
    {s s1 : State} (h : s1 ∈ s.branch net) (hs : s.visited < 2 ^ L) :
    s1.visited < 2 ^ L := by
  obtain ⟨t, hlt, _, _, rfl⟩ := mem_branch_iff.mp h
  have htL : t < L := by
    rcases Nat.lt_or_ge s.pos net.dists.length with hp | hp
    · have hrow : net.dists.getD s.pos [] ∈ net.dists := by
        rw [List.getD_eq_getElem _ _ hp]
        exact List.getElem_mem hp
      exact Nat.lt_of_lt_of_le hlt (hrows _ hrow)
    · rw [List.getD_eq_default _ _ hp] at hlt
      simp at hlt
  show s.visited ||| 1 <<< t < 2 ^ L
  have h2 : 1 <<< t < 2 ^ L := by
    rw [Nat.one_shiftLeft]
    exact Nat.pow_lt_pow_right (by omega) htL
  exact Nat.or_lt_two_pow hs h2

/-- When every row of the distance matrix has at most `L` entries and the
initial bitmask fits `L` bits, running the driver over `tbl ++ r` equals
running it over `tbl` alone with `r` carried along unchanged: every table
access lands in the first `2^L ≤ tbl.length` entries. -/
theorem bb_append (net : Network) (filt : Nat → Nat → Bool) (L : Nat)
    (hrows : ∀ row ∈ net.dists, row.length ≤ L) (r : List Nat) :
    ∀ (fuel : Nat) (s : State) (tbl : List Nat) (ans : Nat),
      2 ^ L ≤ tbl.length → s.visited < 2 ^ L →
      net.branch_and_bound filt fuel s (tbl ++ r) ans =
        ((net.branch_and_bound filt fuel s tbl ans).1 ++ r,
         (net.branch_and_bound filt fuel s tbl ans).2) := by
  intro fuel
  induction fuel with
  | zero => intro s tbl ans _ _; rfl
  | succ n ih =>
    intro s tbl ans htl hvis
    rw [bb_unfold, bb_unfold]
    have hupd : tableUpdate (tbl ++ r) s.visited s.pressure_released =
        tableUpdate tbl s.visited s.pressure_released ++ r :=
      tableUpdate_append _ (Nat.lt_of_lt_of_le hvis htl)
    rw [hupd]
    have main : ∀ (ps : List (Nat × State)), (∀ p ∈ ps, p.2.visited < 2 ^ L) →
        ∀ acc : List Nat × Nat, acc.1.length = tbl.length →
          ps.foldl (bbFold net filt n) (acc.1 ++ r, acc.2) =
            ((ps.foldl (bbFold net filt n) acc).1 ++ r,
             (ps.foldl (bbFold net filt n) acc).2) := by
      intro ps
      induction ps with
      | nil => intro _ acc _; rfl
      | cons p ps ihps =>
        intro hps acc hlen
        rw [List.foldl_cons, List.foldl_cons]
        by_cases hc : filt p.1 acc.2 = true
        · have e1 : bbFold net filt n (acc.1 ++ r, acc.2) p =
              ((net.branch_and_bound filt n p.2 acc.1 acc.2).1 ++ r,
               (net.branch_and_bound filt n p.2 acc.1 acc.2).2) := by
            unfold bbFold
            rw [if_pos hc]
            exact ih p.2 acc.1 acc.2 (hlen ▸ htl) (hps p (by simp))
          have e2 : bbFold net filt n acc p = net.branch_and_bound filt n p.2 acc.1 acc.2 := by
            unfold bbFold
            rw [if_pos hc]
          rw [e1, e2]
          exact ihps (fun q hq => hps q (List.mem_cons_of_mem p hq)) _
            (by rw [bb_table_length]; exact hlen)
        · have e1 : bbFold net filt n (acc.1 ++ r, acc.2) p = (acc.1 ++ r, acc.2) := by
            unfold bbFold
            rw [if_neg hc]
          have e2 : bbFold net filt n acc p = acc := by
            unfold bbFold
            rw [if_neg hc]
          rw [e1, e2]
          exact ihps (fun q hq => hps q (List.mem_cons_of_mem p hq)) acc hlen
    have hkids : ∀ p ∈ sortByKeyDesc (fun p => p.1)
        (((s.branch net).map (fun st => (st.bound net, st))).filter
          (fun p => filt p.1 (max s.pressure_released ans))),
        p.2.visited < 2 ^ L := by
      intro p hp
      rw [mem_sortByKeyDesc] at hp
      obtain ⟨st, hst, rfl⟩ := List.mem_map.mp (List.mem_filter.mp hp).1
      exact branch_visited_lt hrows hst hvis
    exact main _ hkids (tableUpdate tbl s.visited s.pressure_released,
      max s.pressure_released ans) (tableUpdate_length tbl s.visited s.pressure_released)

/-- Zero entries of the table contribute nothing to the combiner's
positive-value filter. -/
theorem filter_pos_enumFrom_replicate (m : Nat) :
    ∀ k : Nat, ((List.replicate m (0 : Nat)).enumFrom k).filter
      (fun p => decide (0 < p.2)) = [] := by
  induction m with
  | zero => intro k; rfl
  | succ n ih =>
    intro k
    rw [List.replicate_succ, List.enumFrom_cons, List.filter_cons_of_neg (by simp), ih]

theorem filter_pos_enum_append (t : List Nat) (m : Nat) :
    ((t ++ List.replicate m (0 : Nat)).enum).filter (fun p => decide (0 < p.2)) =
      (t.enum).filter (fun p => decide (0 < p.2)) := by
  rw [List.enum_append, List.filter_append, filter_pos_enumFrom_replicate, List.append_nil]

/-- Reduction lemma: `maxPressureWithHelper` computed over the small initial table
`replicate (2^L) 0` instead of the full `u16::MAX`-sized table, valid as
soon as every distance row has at most `L ≤ 16` entries. -/
theorem maxPressureWithHelper_eq_small (net : Network) (start budget : Nat) (L : Nat)
    (hrows : ∀ row ∈ net.dists, row.length ≤ L) (hL : 2 ^ L ≤ 65535) :
    maxPressureWithHelper net start budget =
      pairScan (sortByKeyDesc (fun p => p.2)
        (((net.branch_and_bound (fun bound best => decide (best * 3 / 4 < bound)) (budget + 1)
            (State.new start budget) (List.replicate (2 ^ L) 0) 0).1).enum.filter
          (fun p => decide (0 < p.2)))) 0 := by
  unfold maxPressureWithHelper
  have hsplit : (List.replicate 65535 (0 : Nat)) =
      List.replicate (2 ^ L) 0 ++ List.replicate (65535 - 2 ^ L) 0 := by
    rw [← List.replicate_add]
    congr 1
    omega
  rw [hsplit, bb_append net _ L hrows _ _ _ _ _ (by simp) (by simp [State.new])]
  show pairScan (sortByKeyDesc (fun p => p.2)
    ((((net.branch_and_bound (fun bound best => decide (best * 3 / 4 < bound)) (budget + 1)
        (State.new start budget) (List.replicate (2 ^ L) 0) 0).1 ++
      List.replicate (65535 - 2 ^ L) 0).enum).filter (fun p => decide (0 < p.2)))) 0 = _
  rw [filter_pos_enum_append]

/-! ## Reachable bitmasks fit the table -/

theorem reach_preserves_inv {net : Network} {L start : Nat}
    (hrows : ∀ row ∈ net.dists, row.length ≤ L) :
    ∀ {s s2 : State}, Reach net s s2 →
      (s.avoid = 1 <<< start ∧ s.visited.testBit start = false ∧ s.visited < 2 ^ L) →
      (s2.avoid = 1 <<< start ∧ s2.visited.testBit start = false ∧ s2.visited < 2 ^ L) := by
  intro s s2 h
  induction h with
  | refl s => exact id
  | @step u u1 u2 hmem _ ih =>
    intro hinv
    apply ih
    have hvlt := branch_visited_lt hrows hmem hinv.2.2
    obtain ⟨t, hlt, hcv, _, rfl⟩ := mem_branch_iff.mp hmem
    have htstart : t ≠ start := by
      intro heq
      have hcv' := can_visit_iff.mp hcv
      rw [Nat.testBit_or, hinv.1, Nat.one_shiftLeft, Nat.testBit_two_pow] at hcv'
      simp [heq] at hcv'
    refine ⟨hinv.1, ?_, hvlt⟩
    show (u.visited ||| 1 <<< t).testBit start = false
    rw [Nat.testBit_or, hinv.2.1, Nat.one_shiftLeft, Nat.testBit_two_pow]
    simp [htstart]

/-- C9: Mask safety.  For every state reachable from `State::new(start, t)`
with `start < 16` on a network whose rows have at most 16 entries, the
visited bitmask never contains the start valve's bit (the start sits in the
`avoid` mask), hence `visited < 65535 = u16::MAX`, so every
`max_for_visited.get_mut(visited)` lookup succeeds on the 65535-entry table
`part2` allocates; the empty table of `part1` turns every update into a no-op
(`tableUpdate [] v p = []`). -/
theorem reachable_masks_fit_table {net : Network} {start t0 : Nat} {s : State}
    (hrows : ∀ row ∈ net.dists, row.length ≤ 16) (hstart : start < 16)
    (h : Reach net (State.new start t0) s) :
    s.visited.testBit start = false ∧ s.visited < 65535 ∧
      (∀ v p, tableUpdate ([] : List Nat) v p = []) := by
  have hinv := @reach_preserves_inv net 16 start hrows (State.new start t0) s h
    ⟨rfl, by simp [State.new], by simp [State.new]⟩
  refine ⟨hinv.2.1, ?_, fun v p => by simp [tableUpdate]⟩
  have h1 : s.visited < 65536 := hinv.2.2
  have h2 : s.visited ≠ 65535 := by
    intro heq
    have hbit := hinv.2.1
    rw [heq, show (65535 : Nat) = 2 ^ 16 - 1 from rfl, Nat.testBit_two_pow_sub_one] at hbit
    simp [hstart] at hbit
  omega

theorem reachable_masks_fit_table_witness :
    (∀ row ∈ exNet.dists, row.length ≤ 16) ∧ (0 : Nat) < 16 ∧
      (({ visited := 8, avoid := 1, pressure_released := 480, minutes_remaining := 24,
          pos := 3 } : State).visited.testBit 0 = false ∧
        ({ visited := 8, avoid := 1, pressure_released := 480, minutes_remaining := 24,
           pos := 3 } : State).visited < 65535) :=
  ⟨by decide, by decide,
    ⟨(@reachable_masks_fit_table exNet 0 26
        { visited := 8, avoid := 1, pressure_released := 480, minutes_remaining := 24,
          pos := 3 } (by decide) (by decide)
        (Reach.step (by decide) (Reach.refl _))).1,
     (@reachable_masks_fit_table exNet 0 26
        { visited := 8, avoid := 1, pressure_released := 480, minutes_remaining := 24,
          pos := 3 } (by decide) (by decide)
        (Reach.step (by decide) (Reach.refl _))).2.1⟩⟩

/-! ## Exactness of the 16-bit arithmetic below the overflow threshold -/

theorem foldl_mod_eq_sum : ∀ (zs : List Nat) (acc : Nat), acc + zs.sum < 65536 →
    zs.foldl (fun acc x => (acc + x) % 65536) acc = acc + zs.sum := by
  intro zs
  induction zs with
  | nil => intro acc _; simp
  | cons z zs ih =>
    intro acc h
    rw [List.foldl_cons, List.sum_cons] at *
    have hz : (acc + z) % 65536 = acc + z := Nat.mod_eq_of_lt (by omega)
    rw [hz, ih (acc + z) (by omega)]
    omega

theorem bound16_eq_bound {net : Network} {s : State} (h : s.bound net < 65536) :
    s.bound16 net = s.bound net := by
  unfold State.bound16
  unfold State.bound at h ⊢
  unfold sumSlots at h ⊢
  set zs := ((slots s.minutes_remaining).zip (net.availFlows s)).map (fun p => p.1 * p.2) with hzs
  have hmap : ((slots s.minutes_remaining).zip (net.availFlows s)).map
      (fun p => p.1 * p.2 % 65536) = zs := by
    rw [hzs]
    apply List.map_congr_left
    intro a ha
    have hle : a.1 * a.2 ≤ zs.sum :=
      List.le_sum_of_mem (by rw [hzs]; exact List.mem_map_of_mem _ ha)
    exact Nat.mod_eq_of_lt (by omega)
  rw [hmap, foldl_mod_eq_sum zs 0 (by omega)]
  simp only [Nat.zero_add]
  exact Nat.mod_eq_of_lt h

theorem branch16_eq_branch {net : Network} (hv : net.Valid) {s : State}
    (hpos : s.can_visit s.pos = false) (hb : s.bound net < 65536) :
    s.branch16 net = s.branch net := by
  unfold State.branch16 State.branch
  apply List.filterMap_congr
  intro p hp
  by_cases hle : p.2 + 1 ≤ s.minutes_remaining
  · rw [if_pos hle, if_pos hle]
    have hmem : s.child net p.1 ∈ s.branch net := by
      rw [mem_branch_iff]
      have hpe := List.mem_filter.mp hp
      have hget := List.mem_enum_iff_get?.mp hpe.1
      have hplt : p.1 < (net.dists.getD s.pos []).length := (List.get?_eq_some.mp hget).1
      have hpd : (net.dists.getD s.pos []).getD p.1 0 = p.2 := by
        rw [List.getD_eq_getElem?_getD, ← List.get?_eq_getElem?]
        exact congrArg (Option.getD · 0) hget
      exact ⟨p.1, hplt, hpe.2, by rw [hpd]; exact hle, rfl⟩
    have hple : (s.child net p.1).pressure_released ≤ s.bound net :=
      Nat.le_trans (pressure_le_bound net _) (bound_le_of_branch hv hpos hmem)
    have hpd : (net.dists.getD s.pos []).getD p.1 0 = p.2 := by
      have hpe := List.mem_filter.mp hp
      have hget := List.mem_enum_iff_get?.mp hpe.1
      rw [List.getD_eq_getElem?_getD, ← List.get?_eq_getElem?]
      exact congrArg (Option.getD · 0) hget
    have hpress : s.pressure_released +
        (s.minutes_remaining - (p.2 + 1)) * net.flows.getD p.1 0 < 65536 := by
      have hcp : (s.child net p.1).pressure_released = s.pressure_released +
          (s.minutes_remaining - ((net.dists.getD s.pos []).getD p.1 0 + 1)) *
            net.flows.getD p.1 0 := rfl
      rw [hpd] at hcp
      omega
    congr 1
    have hx : (s.minutes_remaining - (p.2 + 1)) * net.flows.getD p.1 0 % 65536 =
        (s.minutes_remaining - (p.2 + 1)) * net.flows.getD p.1 0 :=
      Nat.mod_eq_of_lt (by omega)
    rw [hx, Nat.mod_eq_of_lt hpress]
  · rw [if_neg hle, if_neg hle]

theorem reach16_exact_aux {net : Network} (hv : net.Valid) :
    ∀ {s s2 : State}, Reach16 net s s2 →
      s.can_visit s.pos = false → s.bound net < 65536 →
      Reach net s s2 ∧ s2.bound net ≤ s.bound net ∧ s2.can_visit s2.pos = false ∧
        s2.pressure_released < 65536 ∧ s2.bound16 net = s2.bound net ∧
        s2.branch16 net = s2.branch net := by
  intro s s2 h
  induction h with
  | refl s =>
    intro hpos hb
    exact ⟨Reach.refl s, Nat.le_refl _, hpos,
      Nat.lt_of_le_of_lt (pressure_le_bound net s) hb,
      bound16_eq_bound hb, branch16_eq_branch hv hpos hb⟩
  | step hmem _ ih =>
    intro hpos hb
    rw [branch16_eq_branch hv hpos hb] at hmem
    have hf := branch_step_facts hmem
    have hble := bound_le_of_branch hv hpos hmem
    obtain ⟨hr, hb2, hcv2, hp2, he1, he2⟩ := ih hf.2.2.2.2 (Nat.lt_of_le_of_lt hble hb)
    exact ⟨Reach.step hmem hr, Nat.le_trans hb2 hble, hcv2, hp2, he1, he2⟩

/-- C10: 16-bit arithmetic.  Pressure accumulation and the bound computation
use `u16` arithmetic; whenever the initial state's optimistic bound is below
`2^16`, every pressure value and every bound computed during the search is
exact (wrapping arithmetic agrees with unbounded arithmetic, and the wrapped
search visits exactly the unbounded search's states); the precondition is
required rather than guaranteed: on `bigNet` (maximal `u8` flows, 255-minute
budget) the wrapped bound differs from the exact bound. -/
theorem u16_arithmetic_exact {net : Network} (hv : net.Valid) {s0 s : State}
    (hpos : s0.can_visit s0.pos = false) (hb : s0.bound net < 65536)
    (h : Reach16 net s0 s) :
    (s.pressure_released < 65536 ∧ s.bound16 net = s.bound net ∧
      s.branch16 net = s.branch net ∧ Reach net s0 s) ∧
    (State.new 0 255).bound16 bigNet ≠ (State.new 0 255).bound bigNet := by
  obtain ⟨hr, _, _, hp, he1, he2⟩ := reach16_exact_aux hv h hpos hb
  exact ⟨⟨hp, he1, he2, hr⟩, by decide⟩

theorem u16_arithmetic_exact_witness :
    tinyNet.Valid ∧ (State.new 0 3).can_visit (State.new 0 3).pos = false ∧
      (State.new 0 3).bound tinyNet < 65536 ∧
      (({ visited := 2, avoid := 1, pressure_released := 1, minutes_remaining := 1,
          pos := 1 } : State).pressure_released < 65536 ∧
        ({ visited := 2, avoid := 1, pressure_released := 1, minutes_remaining := 1,
           pos := 1 } : State).bound16 tinyNet =
          ({ visited := 2, avoid := 1, pressure_released := 1, minutes_remaining := 1,
             pos := 1 } : State).bound tinyNet) :=
  ⟨by decide, by decide, by decide,
    ⟨(@u16_arithmetic_exact tinyNet (by decide) (State.new 0 3)
        { visited := 2, avoid := 1, pressure_released := 1, minutes_remaining := 1,
          pos := 1 } (by decide) (by decide)
        (Reach16.step (by decide) (Reach16.refl _))).1.1,
     (@u16_arithmetic_exact tinyNet (by decide) (State.new 0 3)
        { visited := 2, avoid := 1, pressure_released := 1, minutes_remaining := 1,
          pos := 1 } (by decide) (by decide)
        (Reach16.step (by decide) (Reach16.refl _))).1.2.1⟩⟩

/-! ## The two-agent combiner scan -/

theorem foldr_max_le {B : Nat} : ∀ {xs : List Nat}, (∀ x ∈ xs, x ≤ B) →
    xs.foldr max 0 ≤ B := by
  intro xs
  induction xs with
  | nil => intro _; exact Nat.zero_le _
  | cons x xs ih =>
    intro h
    rw [List.foldr_cons]
    exact Nat.max_le.mpr ⟨h x (by simp), ih fun y hy => h y (List.mem_cons_of_mem x hy)⟩

theorem foldr_max_append (a b : List Nat) :
    (a ++ b).foldr max 0 = max (a.foldr max 0) (b.foldr max 0) := by
  induction a with
  | nil => simp
  | cons x a ih => simp [ih, Nat.max_assoc]

/-- The inner loop of the combiner computes the best disjoint partner among
the remaining (descending) entries, clamped from below by the running
`ans`. -/
theorem innerScan_eq (p : Nat × Nat) : ∀ (rest : List (Nat × Nat)) (ans : Nat),
    List.Pairwise (fun a b => b.2 ≤ a.2) rest →
    innerScan p rest ans = max ans
      (((rest.filter (fun q => p.1 &&& q.1 == 0)).map (fun q => p.2 + q.2)).foldr max 0) := by
  intro rest
  induction rest with
  | nil => intro ans _; simp [innerScan]
  | cons q rest ih =>
    intro ans hsort
    have hq : ∀ r ∈ rest, r.2 ≤ q.2 := (List.pairwise_cons.mp hsort).1
    have hrest := (List.pairwise_cons.mp hsort).2
    rw [innerScan]
    have hcand : ∀ x ∈ ((q :: rest).filter (fun r => p.1 &&& r.1 == 0)).map
        (fun r => p.2 + r.2), x ≤ p.2 + q.2 := by
      intro x hx
      obtain ⟨r, hr, rfl⟩ := List.mem_map.mp hx
      have hr2 : r ∈ q :: rest := List.mem_of_mem_filter hr
      rcases List.mem_cons.mp hr2 with rfl | hr3
      · exact Nat.le_refl _
      · exact Nat.add_le_add_left (hq r hr3) _
    by_cases hscore : p.2 + q.2 ≤ ans
    · rw [if_pos hscore]
      have : (((q :: rest).filter (fun r => p.1 &&& r.1 == 0)).map
          (fun r => p.2 + r.2)).foldr max 0 ≤ ans :=
        Nat.le_trans (foldr_max_le hcand) hscore
      omega
    · rw [if_neg hscore]
      by_cases hdisj : (p.1 &&& q.1 == 0) = true
      · rw [if_pos hdisj]
        have hfil : (q :: rest).filter (fun r => p.1 &&& r.1 == 0) =
            q :: rest.filter (fun r => p.1 &&& r.1 == 0) := by
          rw [List.filter_cons, if_pos hdisj]
        rw [hfil, List.map_cons, List.foldr_cons]
        have hle : ((rest.filter (fun r => p.1 &&& r.1 == 0)).map
            (fun r => p.2 + r.2)).foldr max 0 ≤ p.2 + q.2 := by
          apply foldr_max_le
          intro x hx
          obtain ⟨r, hr, rfl⟩ := List.mem_map.mp hx
          exact Nat.add_le_add_left (hq r (List.mem_of_mem_filter hr)) _
        omega
      · rw [if_neg hdisj]
        have hfil : (q :: rest).filter (fun r => p.1 &&& r.1 == 0) =
            rest.filter (fun r => p.1 &&& r.1 == 0) := by
          rw [List.filter_cons, if_neg hdisj]
        rw [hfil, ih ans hrest]

/-- The outer loop accumulates the best disjoint pair over all suffixes. -/
theorem pairScan_eq : ∀ (l : List (Nat × Nat)) (ans : Nat),
    List.Pairwise (fun a b => b.2 ≤ a.2) l →
    pairScan l ans = max ans (bestDisjointPairSpec l) := by
  intro l
  induction l with
  | nil => intro ans _; simp [pairScan, bestDisjointPairSpec, allPairs]
  | cons p rest ih =>
    intro ans hsort
    have hrest := (List.pairwise_cons.mp hsort).2
    rw [pairScan, ih _ hrest, innerScan_eq p rest ans hrest]
    have hspec : bestDisjointPairSpec (p :: rest) =
        max (((rest.filter (fun q => p.1 &&& q.1 == 0)).map
            (fun q => p.2 + q.2)).foldr max 0)
          (bestDisjointPairSpec rest) := by
      have hall : allPairs (p :: rest) = rest.map (fun y => (p, y)) ++ allPairs rest := rfl
      unfold bestDisjointPairSpec
      rw [hall, List.filter_append, List.map_append, foldr_max_append]
      congr 2
      rw [List.filter_map, List.map_map]
      rfl
    rw [hspec]
    omega

/-- C5: Combiner refinement.  On any `(mask, value)` list sorted by
descending value (as `part2` produces after filtering the positive table
entries), the early-stopping double scan returns exactly the maximum of
`value_i + value_j` over all pairs `i < j` with `mask_i &&& mask_j = 0` —
the same result as the exhaustive scan `bestDisjointPairSpec` — and in
particular returns 0 when fewer than two entries exist or no disjoint pair
exists. -/
theorem combiner_scan_correct {l : List (Nat × Nat)}
    (hsorted : List.Pairwise (fun a b => b.2 ≤ a.2) l) :
    pairScan l 0 = bestDisjointPairSpec l := by
  rw [pairScan_eq l 0 hsorted]
  simp

theorem combiner_scan_correct_witness :
    List.Pairwise (fun a b : Nat × Nat => b.2 ≤ a.2) [(1, 5), (2, 3), (4, 2)] ∧
      pairScan [(1, 5), (2, 3), (4, 2)] 0 = bestDisjointPairSpec [(1, 5), (2, 3), (4, 2)] :=
  ⟨by decide, combiner_scan_correct (by decide)⟩

/-! ## Concrete evaluation on the canonical example -/

theorem exFW_init : initDists exampleValves = exFW0 := by decide

theorem exFW_step0 : fwInner 10 exFW0 0 = exFW1 := by decide

theorem exFW_step1 : fwInner 10 exFW1 1 = exFW2 := by decide

theorem exFW_step2 : fwInner 10 exFW2 2 = exFW3 := by decide

theorem exFW_step3 : fwInner 10 exFW3 3 = exFW4 := by decide

theorem exFW_step4 : fwInner 10 exFW4 4 = exFW5 := by decide

theorem exFW_step5 : fwInner 10 exFW5 5 = exFW6 := by decide

theorem exFW_step6 : fwInner 10 exFW6 6 = exFW7 := by decide

theorem exFW_step7 : fwInner 10 exFW7 7 = exFW8 := by decide

theorem exFW_step8 : fwInner 10 exFW8 8 = exFW9 := by decide

theorem exFW_step9 : fwInner 10 exFW9 9 = exFW10 := by decide

theorem exSub1 : exNet.branch_and_bound (fun bound best => decide (best * 3 / 4 < bound)) 26
    { visited := 8, avoid := 1, pressure_released := 480, minutes_remaining := 24, pos := 3 }
    (List.replicate 128 0) 0 = (exSubT1, 1327) := by
  decide

theorem exSub2 : exNet.branch_and_bound (fun bound best => decide (best * 3 / 4 < bound)) 26
    { visited := 2, avoid := 1, pressure_released := 312, minutes_remaining := 24, pos := 1 }
    (exSubT1) 1327 = (exSubT2, 1327) := by
  decide

theorem exSub3 : exNet.branch_and_bound (fun bound best => decide (best * 3 / 4 < bound)) 26
    { visited := 64, avoid := 1, pressure_released := 483, minutes_remaining := 23, pos := 6 }
    (exSubT2) 1327 = (exSubT3, 1327) := by
  decide

theorem exSub4 : exNet.branch_and_bound (fun bound best => decide (best * 3 / 4 < bound)) 26
    { visited := 16, avoid := 1, pressure_released := 69, minutes_remaining := 23, pos := 4 }
    (exSubT3) 1327 = (exSubT4, 1327) := by
  decide

theorem exSub5 : exNet.branch_and_bound (fun bound best => decide (best * 3 / 4 < bound)) 26
    { visited := 4, avoid := 1, pressure_released := 46, minutes_remaining := 23, pos := 2 }
    (exSubT4) 1327 = (exSubT5, 1327) := by
  decide

theorem exSub6 : exNet.branch_and_bound (fun bound best => decide (best * 3 / 4 < bound)) 26
    { visited := 32, avoid := 1, pressure_released := 440, minutes_remaining := 20, pos := 5 }
    (exSubT5) 1327 = (exTbl128, 1327) := by
  decide

theorem exStep1 : bbFold exNet (fun bound best => decide (best * 3 / 4 < bound)) 26
    (List.replicate 128 0, 0) (1694, { visited := 8, avoid := 1, pressure_released := 480, minutes_remaining := 24, pos := 3 }) = (exSubT1, 1327) := by
  unfold bbFold
  rw [if_pos (by decide)]
  exact exSub1

theorem exStep2 : bbFold exNet (fun bound best => decide (best * 3 / 4 < bound)) 26
    (exSubT1, 1327) (1652, { visited := 2, avoid := 1, pressure_released := 312, minutes_remaining := 24, pos := 1 }) = (exSubT2, 1327) := by
  unfold bbFold
  rw [if_pos (by decide)]
  exact exSub2

theorem exStep3 : bbFold exNet (fun bound best => decide (best * 3 / 4 < bound)) 26
    (exSubT2, 1327) (1617, { visited := 64, avoid := 1, pressure_released := 483, minutes_remaining := 23, pos := 6 }) = (exSubT3, 1327) := by
  unfold bbFold
  rw [if_pos (by decide)]
  exact exSub3

theorem exStep4 : bbFold exNet (fun bound best => decide (best * 3 / 4 < bound)) 26
    (exSubT3, 1327) (1491, { visited := 16, avoid := 1, pressure_released := 69, minutes_remaining := 23, pos := 4 }) = (exSubT4, 1327) := by
  unfold bbFold
  rw [if_pos (by decide)]
  exact exSub4

theorem exStep5 : bbFold exNet (fun bound best => decide (best * 3 / 4 < bound)) 26
    (exSubT4, 1327) (1481, { visited := 4, avoid := 1, pressure_released := 46, minutes_remaining := 23, pos := 2 }) = (exSubT5, 1327) := by
  unfold bbFold
  rw [if_pos (by decide)]
  exact exSub5

theorem exStep6 : bbFold exNet (fun bound best => decide (best * 3 / 4 < bound)) 26
    (exSubT5, 1327) (1376, { visited := 32, avoid := 1, pressure_released := 440, minutes_remaining := 20, pos := 5 }) = (exTbl128, 1327) := by
  unfold bbFold
  rw [if_pos (by decide)]
  exact exSub6

theorem exRootPairs : sortByKeyDesc (fun p => p.1)
    ((((State.new 0 26).branch exNet).map (fun st => (st.bound exNet, st))).filter
      (fun p => (fun bound best => decide (best * 3 / 4 < bound)) p.1 (max (State.new 0 26).pressure_released 0))) =
    [(1694, { visited := 8, avoid := 1, pressure_released := 480, minutes_remaining := 24, pos := 3 }), (1652, { visited := 2, avoid := 1, pressure_released := 312, minutes_remaining := 24, pos := 1 }), (1617, { visited := 64, avoid := 1, pressure_released := 483, minutes_remaining := 23, pos := 6 }), (1491, { visited := 16, avoid := 1, pressure_released := 69, minutes_remaining := 23, pos := 4 }), (1481, { visited := 4, avoid := 1, pressure_released := 46, minutes_remaining := 23, pos := 2 }), (1376, { visited := 32, avoid := 1, pressure_released := 440, minutes_remaining := 20, pos := 5 })] := by
  decide

theorem exRootInit : (tableUpdate (List.replicate 128 0) (State.new 0 26).visited (State.new 0 26).pressure_released, max (State.new 0 26).pressure_released 0) = ((List.replicate 128 0 : List Nat), (0 : Nat)) := by
  decide

theorem foldlStep (f : α → β → α) (a : α) (p : β) (ps : List β) :
    List.foldl f a (p :: ps) = List.foldl f (f a p) ps := rfl

theorem foldlNil (f : α → β → α) (a : α) : List.foldl f a [] = a := rfl

theorem bbChain : List.foldl (bbFold exNet (fun bound best => decide (best * 3 / 4 < bound)) 26) ((List.replicate 128 0 : List Nat), (0 : Nat))
    [(1694, { visited := 8, avoid := 1, pressure_released := 480, minutes_remaining := 24, pos := 3 }), (1652, { visited := 2, avoid := 1, pressure_released := 312, minutes_remaining := 24, pos := 1 }), (1617, { visited := 64, avoid := 1, pressure_released := 483, minutes_remaining := 23, pos := 6 }), (1491, { visited := 16, avoid := 1, pressure_released := 69, minutes_remaining := 23, pos := 4 }), (1481, { visited := 4, avoid := 1, pressure_released := 46, minutes_remaining := 23, pos := 2 }), (1376, { visited := 32, avoid := 1, pressure_released := 440, minutes_remaining := 20, pos := 5 })] = (exTbl128, 1327) :=
  ((foldlStep (bbFold exNet (fun bound best => decide (best * 3 / 4 < bound)) 26) ((List.replicate 128 0 : List Nat), (0 : Nat)) (1694, { visited := 8, avoid := 1, pressure_released := 480, minutes_remaining := 24, pos := 3 }) [(1652, { visited := 2, avoid := 1, pressure_released := 312, minutes_remaining := 24, pos := 1 }), (1617, { visited := 64, avoid := 1, pressure_released := 483, minutes_remaining := 23, pos := 6 }), (1491, { visited := 16, avoid := 1, pressure_released := 69, minutes_remaining := 23, pos := 4 }), (1481, { visited := 4, avoid := 1, pressure_released := 46, minutes_remaining := 23, pos := 2 }), (1376, { visited := 32, avoid := 1, pressure_released := 440, minutes_remaining := 20, pos := 5 })]).trans
  ((congrArg (fun x => List.foldl (bbFold exNet (fun bound best => decide (best * 3 / 4 < bound)) 26) x [(1652, { visited := 2, avoid := 1, pressure_released := 312, minutes_remaining := 24, pos := 1 }), (1617, { visited := 64, avoid := 1, pressure_released := 483, minutes_remaining := 23, pos := 6 }), (1491, { visited := 16, avoid := 1, pressure_released := 69, minutes_remaining := 23, pos := 4 }), (1481, { visited := 4, avoid := 1, pressure_released := 46, minutes_remaining := 23, pos := 2 }), (1376, { visited := 32, avoid := 1, pressure_released := 440, minutes_remaining := 20, pos := 5 })]) exStep1).trans
  ((foldlStep (bbFold exNet (fun bound best => decide (best * 3 / 4 < bound)) 26) (exSubT1, 1327) (1652, { visited := 2, avoid := 1, pressure_released := 312, minutes_remaining := 24, pos := 1 }) [(1617, { visited := 64, avoid := 1, pressure_released := 483, minutes_remaining := 23, pos := 6 }), (1491, { visited := 16, avoid := 1, pressure_released := 69, minutes_remaining := 23, pos := 4 }), (1481, { visited := 4, avoid := 1, pressure_released := 46, minutes_remaining := 23, pos := 2 }), (1376, { visited := 32, avoid := 1, pressure_released := 440, minutes_remaining := 20, pos := 5 })]).trans
  ((congrArg (fun x => List.foldl (bbFold exNet (fun bound best => decide (best * 3 / 4 < bound)) 26) x [(1617, { visited := 64, avoid := 1, pressure_released := 483, minutes_remaining := 23, pos := 6 }), (1491, { visited := 16, avoid := 1, pressure_released := 69, minutes_remaining := 23, pos := 4 }), (1481, { visited := 4, avoid := 1, pressure_released := 46, minutes_remaining := 23, pos := 2 }), (1376, { visited := 32, avoid := 1, pressure_released := 440, minutes_remaining := 20, pos := 5 })]) exStep2).trans
  ((foldlStep (bbFold exNet (fun bound best => decide (best * 3 / 4 < bound)) 26) (exSubT2, 1327) (1617, { visited := 64, avoid := 1, pressure_released := 483, minutes_remaining := 23, pos := 6 }) [(1491, { visited := 16, avoid := 1, pressure_released := 69, minutes_remaining := 23, pos := 4 }), (1481, { visited := 4, avoid := 1, pressure_released := 46, minutes_remaining := 23, pos := 2 }), (1376, { visited := 32, avoid := 1, pressure_released := 440, minutes_remaining := 20, pos := 5 })]).trans
  ((congrArg (fun x => List.foldl (bbFold exNet (fun bound best => decide (best * 3 / 4 < bound)) 26) x [(1491, { visited := 16, avoid := 1, pressure_released := 69, minutes_remaining := 23, pos := 4 }), (1481, { visited := 4, avoid := 1, pressure_released := 46, minutes_remaining := 23, pos := 2 }), (1376, { visited := 32, avoid := 1, pressure_released := 440, minutes_remaining := 20, pos := 5 })]) exStep3).trans
  ((foldlStep (bbFold exNet (fun bound best => decide (best * 3 / 4 < bound)) 26) (exSubT3, 1327) (1491, { visited := 16, avoid := 1, pressure_released := 69, minutes_remaining := 23, pos := 4 }) [(1481, { visited := 4, avoid := 1, pressure_released := 46, minutes_remaining := 23, pos := 2 }), (1376, { visited := 32, avoid := 1, pressure_released := 440, minutes_remaining := 20, pos := 5 })]).trans
  ((congrArg (fun x => List.foldl (bbFold exNet (fun bound best => decide (best * 3 / 4 < bound)) 26) x [(1481, { visited := 4, avoid := 1, pressure_released := 46, minutes_remaining := 23, pos := 2 }), (1376, { visited := 32, avoid := 1, pressure_released := 440, minutes_remaining := 20, pos := 5 })]) exStep4).trans
  ((foldlStep (bbFold exNet (fun bound best => decide (best * 3 / 4 < bound)) 26) (exSubT4, 1327) (1481, { visited := 4, avoid := 1, pressure_released := 46, minutes_remaining := 23, pos := 2 }) [(1376, { visited := 32, avoid := 1, pressure_released := 440, minutes_remaining := 20, pos := 5 })]).trans
  ((congrArg (fun x => List.foldl (bbFold exNet (fun bound best => decide (best * 3 / 4 < bound)) 26) x [(1376, { visited := 32, avoid := 1, pressure_released := 440, minutes_remaining := 20, pos := 5 })]) exStep5).trans
  ((foldlStep (bbFold exNet (fun bound best => decide (best * 3 / 4 < bound)) 26) (exSubT5, 1327) (1376, { visited := 32, avoid := 1, pressure_released := 440, minutes_remaining := 20, pos := 5 }) []).trans
  ((congrArg (fun x => List.foldl (bbFold exNet (fun bound best => decide (best * 3 / 4 < bound)) 26) x []) exStep6).trans
  (foldlNil (bbFold exNet (fun bound best => decide (best * 3 / 4 < bound)) 26) (exTbl128, 1327))))))))))))))

/-- The loose 26-minute search on `exNet` over the 128-entry table. -/
theorem bb26_table : exNet.branch_and_bound (fun bound best => decide (best * 3 / 4 < bound)) (26 + 1)
    (State.new 0 26) (List.replicate 128 0) 0 = (exTbl128, 1327) := by
  rw [bb_unfold, exRootPairs, exRootInit]
  exact bbChain

theorem fwChain : List.foldl (fwInner 10) exFW0 [0, 1, 2, 3, 4, 5, 6, 7, 8, 9] = exFW10 :=
  ((foldlStep (fwInner 10) exFW0 0 [1, 2, 3, 4, 5, 6, 7, 8, 9]).trans
  ((congrArg (fun x => List.foldl (fwInner 10) x [1, 2, 3, 4, 5, 6, 7, 8, 9]) exFW_step0).trans
  ((foldlStep (fwInner 10) exFW1 1 [2, 3, 4, 5, 6, 7, 8, 9]).trans
  ((congrArg (fun x => List.foldl (fwInner 10) x [2, 3, 4, 5, 6, 7, 8, 9]) exFW_step1).trans
  ((foldlStep (fwInner 10) exFW2 2 [3, 4, 5, 6, 7, 8, 9]).trans
  ((congrArg (fun x => List.foldl (fwInner 10) x [3, 4, 5, 6, 7, 8, 9]) exFW_step2).trans
  ((foldlStep (fwInner 10) exFW3 3 [4, 5, 6, 7, 8, 9]).trans
  ((congrArg (fun x => List.foldl (fwInner 10) x [4, 5, 6, 7, 8, 9]) exFW_step3).trans
  ((foldlStep (fwInner 10) exFW4 4 [5, 6, 7, 8, 9]).trans
  ((congrArg (fun x => List.foldl (fwInner 10) x [5, 6, 7, 8, 9]) exFW_step4).trans
  ((foldlStep (fwInner 10) exFW5 5 [6, 7, 8, 9]).trans
  ((congrArg (fun x => List.foldl (fwInner 10) x [6, 7, 8, 9]) exFW_step5).trans
  ((foldlStep (fwInner 10) exFW6 6 [7, 8, 9]).trans
  ((congrArg (fun x => List.foldl (fwInner 10) x [7, 8, 9]) exFW_step6).trans
  ((foldlStep (fwInner 10) exFW7 7 [8, 9]).trans
  ((congrArg (fun x => List.foldl (fwInner 10) x [8, 9]) exFW_step7).trans
  ((foldlStep (fwInner 10) exFW8 8 [9]).trans
  ((congrArg (fun x => List.foldl (fwInner 10) x [9]) exFW_step8).trans
  ((foldlStep (fwInner 10) exFW9 9 []).trans
  ((congrArg (fun x => List.foldl (fwInner 10) x []) exFW_step9).trans
  (foldlNil (fwInner 10) exFW10)))))))))))))))))))))

theorem shortest_distances_example : shortest_distances exampleValves = exFW10 := by
  show (List.range exampleValves.length).foldl (fwInner exampleValves.length)
    (initDists exampleValves) = exFW10
  rw [show exampleValves.length = 10 from rfl,
    show List.range 10 = [0, 1, 2, 3, 4, 5, 6, 7, 8, 9] from rfl, exFW_init]
  exact fwChain

theorem fromValves_example :
    Task.fromValves exampleValves = Except.ok { network := exNet, start := 0 } := by
  unfold Task.fromValves
  rw [shortest_distances_example]
  decide

theorem mpwh_exNet_26 : maxPressureWithHelper exNet 0 26 = 1707 := by
  rw [maxPressureWithHelper_eq_small exNet 0 26 7 (by decide) (by decide),
    show (List.replicate (2 ^ 7) (0 : Nat)) = List.replicate 128 0 from rfl, bb26_table]
  show pairScan (sortByKeyDesc (fun p => p.2)
    ((exTbl128.enum).filter (fun p => decide (0 < p.2)))) 0 = 1707
  decide

theorem maxPressure_exNet_30 : maxPressure exNet 0 30 = 1651 := by decide

theorem maxPressure_exNet_26 : maxPressure exNet 0 26 = 1327 := by decide

/-- C2: Canonical scenario.  Building the `Task` from the canonical 10-valve
example network succeeds and produces the reduced network `exNet` with start
index 0; the single-agent search with a 30-minute budget (`Task::part1`)
returns 1651, and the two-agent search with a 26-minute budget
(`Task::part2`) returns 1707. -/
theorem canonical_example_values :
    Task.fromValves exampleValves = Except.ok { network := exNet, start := 0 } ∧
      ({ network := exNet, start := 0 } : Task).part1 = 1651 ∧
      ({ network := exNet, start := 0 } : Task).part2 = 1707 :=
  ⟨fromValves_example, maxPressure_exNet_30, mpwh_exNet_26⟩

/-- C3 counterexample: on the two-valve network with a 3-minute budget, the
single-agent algorithm returns 1, but the two-agent algorithm returns 0: the
combiner's `value > 0` filter drops every mask the helper-does-nothing
partition would need, so `maxPressureWithHelper ≥ maxPressure` fails. -/
theorem helper_loses_on_tiny :
    maxPressureWithHelper tinyNet 0 3 < maxPressure tinyNet 0 3 := by
  have h2 : maxPressureWithHelper tinyNet 0 3 = 0 := by
    rw [maxPressureWithHelper_eq_small tinyNet 0 3 2 (by decide) (by decide)]
    decide
  have h1 : maxPressure tinyNet 0 3 = 1 := by decide
  omega

/-- C3 (amended): the claimed inequality does not hold for every network and
budget (see the counterexample); on the canonical example network at the
equal budget of 26 minutes the two-agent result (1707) does exceed the
single-agent result (1327). -/
theorem helper_ge_single_on_example :
    maxPressure exNet 0 26 ≤ maxPressureWithHelper exNet 0 26 := by
  rw [mpwh_exNet_26, maxPressure_exNet_26]
  omega

/-- C8 counterexample: an empty valve list does not construct successfully:
`Task::from_str` cannot locate the `AA` start valve and fails (the source
panics via `.expect("an AA valve")`, modelled as an error), so the entry
points are never reached; the claim that construction succeeds and both
entry points return 0 is false. -/
theorem fromValves_empty_not_ok : (Task.fromValves []).isOk = false := rfl

/-- C8 (amended): an empty valve list is rejected at construction with the
`an AA valve` failure (the missing start valve), rather than accepted with
both entry points returning 0. -/
theorem fromValves_empty_error : Task.fromValves [] = Except.error ("an AA valve") := rfl

end Day16
